import Mathlib

/-!
Verification of the KernMLOps kernel control-flow instrumentation and
correlation engine, shallowly embedded from the eBPF C sources:

- `tcp_v4_connect.bpf.c` (connect path: correlation store, branch
  classification, latency, per-branch counters),
- the TCP receive path handlers (`trace_tcp_v4_rcv` and the branch probes
  with `TCP_BRANCH_*` outcomes and `SKB_DROP_REASON_*` reasons),
- the madvise/munmap probes (`kprobe__do_madvise` / `kretprobe__do_madvise`),
- the page-fault probes (`trace_handle_mm_fault_entry` / `_return`),
- the rss_stat tracepoint pair,
- the `tcp_rcv_state_process` statistics (atomic counter increments).

BCC/kernel map semantics embedded here: a `BPF_HASH(name, K, V, CAP)` is a
bounded map; `update` (BPF_ANY) overwrites an existing key or inserts a new
one while there is room and fails (leaving the map unchanged) on a full map;
`insert` (BPF_NOEXIST) only inserts when the key is absent and there is room;
`delete` removes the key's entry.  Machine integers are modelled as `Nat`
(`u32`/`u64`) or `Int` (`int`/`s32`), with truncation written as `% 2 ^ 32`
and u64 subtraction as wrap-around subtraction `usub64`.
-/

namespace KernML

/-- Wrap-around subtraction on 64-bit unsigned values (`a - b` in C on `u64`). -/
def usub64 (a b : Nat) : Nat :=
  (2 ^ 64 + a % 2 ^ 64 - b % 2 ^ 64) % 2 ^ 64

/-! ## Bounded BPF hash map

Association-list model of a `BPF_HASH` with `max_entries` capacity.  Keys are
`Nat` (the probes use a `u32` thread id or `u64` pid_tgid). -/

/-- Lookup in an association list (first entry with the key). -/
def lookupA {V : Type} : List (Nat × V) → Nat → Option V
  | [], _ => none
  | p :: rest, k => if p.1 = k then some p.2 else lookupA rest k

/-- Replace the value stored under `k` (used by `update` on a present key). -/
def replaceA {V : Type} : List (Nat × V) → Nat → V → List (Nat × V)
  | [], _, _ => []
  | p :: rest, k, v => if p.1 = k then (k, v) :: replaceA rest k v else p :: replaceA rest k v

/-- Remove all entries stored under `k` (used by `delete`). -/
def eraseA {V : Type} : List (Nat × V) → Nat → List (Nat × V)
  | [], _ => []
  | p :: rest, k => if p.1 = k then eraseA rest k else p :: eraseA rest k

/-- A `BPF_HASH(..., max_entries = cap)` map. -/
structure BpfHash (V : Type) where
  cap : Nat
  entries : List (Nat × V)
deriving DecidableEq, Repr

namespace BpfHash

variable {V : Type}

/-- `map.lookup(&k)`: pointer to the stored value, or NULL. -/
def lookup (m : BpfHash V) (k : Nat) : Option V :=
  lookupA m.entries k

/-- `map.update(&k, &v)` (BPF_ANY): overwrite if present, insert if there is
room, reject (no change) on a full map. -/
def update (m : BpfHash V) (k : Nat) (v : V) : BpfHash V :=
  if (m.lookup k).isSome then
    ⟨m.cap, replaceA m.entries k v⟩
  else if m.entries.length < m.cap then
    ⟨m.cap, (k, v) :: m.entries⟩
  else m

/-- `map.insert(&k, &v)` (BPF_NOEXIST): insert only when the key is absent
and there is room; otherwise no change. -/
def insert (m : BpfHash V) (k : Nat) (v : V) : BpfHash V :=
  if (m.lookup k).isSome then m
  else if m.entries.length < m.cap then
    ⟨m.cap, (k, v) :: m.entries⟩
  else m

/-- `map.delete(&k)`. -/
def delete (m : BpfHash V) (k : Nat) : BpfHash V :=
  ⟨m.cap, eraseA m.entries k⟩

/-- The empty map of a given capacity (initial state of a session). -/
def empty (cap : Nat) : BpfHash V :=
  ⟨cap, []⟩

/-- The key list of the map, in storage order. -/
def keys (m : BpfHash V) : List Nat :=
  m.entries.map Prod.fst

/-- `m` respects its configured capacity bound. -/
def Bounded (m : BpfHash V) : Prop :=
  m.entries.length ≤ m.cap

end BpfHash

/-! ## The tcp_v4_connect instrumentation (`tcp_v4_connect.bpf.c`)

The correlation key is `u32 tid = bpf_get_current_pid_tgid()` — the 64-bit
pid/tgid value truncated to 32 bits — in every handler of the file.  The two
correlation maps `connect_start_times` and `connect_tracking` are declared
without an explicit size, so they get BCC's default 10240 max entries. -/

namespace Connect

open BpfHash

/-- `connect_event_t` from `tcp_v4_connect.bpf.c`. -/
structure ConnEvent where
  pid : Nat
  tgid : Nat
  ts_uptime_us : Nat
  latency_ns : Nat
  branch_type : Nat
  path_type : Nat
  error_code : Int
  saddr : Nat
  daddr : Nat
  sport : Nat
  dport : Nat
  comm : String
deriving DecidableEq, Repr

/-- The correlation state: `connect_start_times` (`u32 -> u64`) and
`connect_tracking` (`u32 -> connect_event_t`). -/
structure ConnState where
  start_times : BpfHash Nat
  tracking : BpfHash ConnEvent
deriving DecidableEq, Repr

/-- Initial state of a session: both maps empty at BCC's default 10240 slots. -/
def connInit : ConnState :=
  ⟨BpfHash.empty 10240, BpfHash.empty 10240⟩

/-- Ambient inputs of the entry probe `trace_tcp_v4_connect`: the pid/tgid
helper value, the ktime timestamp, the address/port fields read from the
socket and sockaddr, and the current comm. -/
structure EntryCtx where
  pidtgid : Nat
  ts : Nat
  saddr : Nat
  daddr : Nat
  sport : Nat
  dport : Nat
  comm : String
deriving DecidableEq, Repr

/-- The event built by `trace_tcp_v4_connect` (lines 76-100): zero-initialized
`connect_event_t`, `pid = tid`, `tgid = tid >> 32` where `tid` is the 32-bit
truncation (in BPF the u32 lives zero-extended in a 64-bit register, so the
shift by 32 yields 0), `ts_uptime_us = ts / 1000`, `branch_type =
CONNECT_ENTRY = 0`, `latency_ns = 0`, `error_code = ERR_NONE = 0`, enrichment
fields from the probe reads, `path_type` left at its zero initialization. -/
def connEntryEvent (c : EntryCtx) : ConnEvent :=
  let tid := c.pidtgid % 2 ^ 32
  { pid := tid, tgid := tid / 2 ^ 32, ts_uptime_us := c.ts / 1000,
    latency_ns := 0, branch_type := 0, path_type := 0, error_code := 0,
    saddr := c.saddr, daddr := c.daddr, sport := c.sport, dport := c.dport,
    comm := c.comm }

/-- `trace_tcp_v4_connect` (entry probe, lines 75-114): stores the start time
under the truncated tid, stores the entry event in `connect_tracking`, and
submits the entry event.  (The `branch_stats` bump of lines 109-111 is the
non-atomic counter increment modelled in the `Ctr` section.)  Returns the
new state, the submitted events, and the handler's return value 0. -/
def trace_tcp_v4_connect (s : ConnState) (c : EntryCtx) :
    ConnState × List ConnEvent × Int :=
  let tid := c.pidtgid % 2 ^ 32
  let ev := connEntryEvent c
  (⟨s.start_times.update tid c.ts, s.tracking.update tid ev⟩, [ev], 0)

/-- The in-place mutation that every intermediate branch probe performs on the
tracked event through the `connect_tracking.lookup` pointer: set the latency
when a start time exists, refresh `ts_uptime_us`, set the probe's branch
constant, and optionally overwrite `error_code` and `path_type`. -/
def connMidApply (branch : Nat) (errU : Option Int) (pathU : Option Nat)
    (ts : Nat) (startv : Option Nat) (ev : ConnEvent) : ConnEvent :=
  let ev1 := match startv with
    | some st => { ev with latency_ns := usub64 ts st }
    | none => ev
  let ev2 := { ev1 with ts_uptime_us := ts / 1000, branch_type := branch }
  let ev3 := match errU with
    | some e => { ev2 with error_code := e }
    | none => ev2
  match pathU with
  | some p => { ev3 with path_type := p }
  | none => ev3

/-- Common body of the sixteen intermediate branch probes of
`tcp_v4_connect.bpf.c` (each is this block with its own branch constant and
optional error/path constants): look up the tracked event by the truncated
tid; on a miss fall through to `return 0` with no effect; on a hit mutate the
tracked record in place and submit it.  (The per-branch `branch_stats` /
`error_stats` / `path_stats` bumps are modelled in the `Ctr` section.) -/
def connIntermediate (branch : Nat) (errU : Option Int) (pathU : Option Nat)
    (s : ConnState) (pidtgid ts : Nat) : ConnState × List ConnEvent × Int :=
  let tid := pidtgid % 2 ^ 32
  match s.tracking.lookup tid with
  | none => (s, [], 0)
  | some ev =>
    let ev2 := connMidApply branch errU pathU ts (s.start_times.lookup tid) ev
    (⟨s.start_times, s.tracking.update tid ev2⟩, [ev2], 0)

/-- `trace_invalid_addrlen` (lines 117-144): `CONNECT_INVALID_ADDRLEN = 1`,
`error_code = ERR_EINVAL = -22`, `path_type = PATH_ERROR = 2`. -/
def trace_invalid_addrlen (s : ConnState) (pidtgid ts : Nat) :
    ConnState × List ConnEvent × Int :=
  connIntermediate 1 (some (-22)) (some 2) s pidtgid ts

/-- `trace_wrong_family` (lines 147-174): branch 2, `ERR_EAFNOSUPPORT = -97`,
`PATH_ERROR`. -/
def trace_wrong_family (s : ConnState) (pidtgid ts : Nat) :
    ConnState × List ConnEvent × Int :=
  connIntermediate 2 (some (-97)) (some 2) s pidtgid ts

/-- `trace_route_lookup` (lines 177-198): `CONNECT_ROUTE_LOOKUP = 17`, no
error or path update. -/
def trace_route_lookup (s : ConnState) (pidtgid ts : Nat) :
    ConnState × List ConnEvent × Int :=
  connIntermediate 17 none none s pidtgid ts

/-- `trace_route_error` (lines 201-228): branch 3, `error_code` from the
probed register (`PT_REGS_RC`), `PATH_ERROR`. -/
def trace_route_error (s : ConnState) (pidtgid ts : Nat) (rc : Int) :
    ConnState × List ConnEvent × Int :=
  connIntermediate 3 (some rc) (some 2) s pidtgid ts

/-- `trace_multicast_bcast` (lines 231-258): branch 4,
`ERR_ENETUNREACH = -101`, `PATH_ERROR`. -/
def trace_multicast_bcast (s : ConnState) (pidtgid ts : Nat) :
    ConnState × List ConnEvent × Int :=
  connIntermediate 4 (some (-101)) (some 2) s pidtgid ts

/-- `trace_no_src_addr` (lines 261-282): branch 5, no error or path update. -/
def trace_no_src_addr (s : ConnState) (pidtgid ts : Nat) :
    ConnState × List ConnEvent × Int :=
  connIntermediate 5 none none s pidtgid ts

/-- `trace_src_bind_fail` (lines 285-312): branch 15, `error_code` from
`PT_REGS_RC`, `PATH_ERROR`. -/
def trace_src_bind_fail (s : ConnState) (pidtgid ts : Nat) (rc : Int) :
    ConnState × List ConnEvent × Int :=
  connIntermediate 15 (some rc) (some 2) s pidtgid ts

/-- `trace_port_alloc` (lines 315-336): branch 18. -/
def trace_port_alloc (s : ConnState) (pidtgid ts : Nat) :
    ConnState × List ConnEvent × Int :=
  connIntermediate 18 none none s pidtgid ts

/-- `trace_hash_error` (lines 339-361): branch 8, `PATH_ERROR`, no error
code update. -/
def trace_hash_error (s : ConnState) (pidtgid ts : Nat) :
    ConnState × List ConnEvent × Int :=
  connIntermediate 8 none (some 2) s pidtgid ts

/-- `trace_fastopen_defer` (lines 364-390): branch 9,
`PATH_FASTOPEN = 3`. -/
def trace_fastopen_defer (s : ConnState) (pidtgid ts : Nat) :
    ConnState × List ConnEvent × Int :=
  connIntermediate 9 none (some 3) s pidtgid ts

/-- `trace_regular_syn` (lines 393-419): branch 19, `PATH_SLOW = 1`. -/
def trace_regular_syn (s : ConnState) (pidtgid ts : Nat) :
    ConnState × List ConnEvent × Int :=
  connIntermediate 19 none (some 1) s pidtgid ts

/-- `trace_tcp_connect_err` (lines 422-445): branch 10, `error_code` from
`PT_REGS_RC`, `PATH_ERROR`. -/
def trace_tcp_connect_err (s : ConnState) (pidtgid ts : Nat) (rc : Int) :
    ConnState × List ConnEvent × Int :=
  connIntermediate 10 (some rc) (some 2) s pidtgid ts

/-- `trace_enetunreach` (lines 448-471): branch 11, `ERR_ENETUNREACH = -101`,
`PATH_ERROR`. -/
def trace_enetunreach (s : ConnState) (pidtgid ts : Nat) :
    ConnState × List ConnEvent × Int :=
  connIntermediate 11 (some (-101)) (some 2) s pidtgid ts

/-- `trace_new_sport` (lines 474-495): branch 12. -/
def trace_new_sport (s : ConnState) (pidtgid ts : Nat) :
    ConnState × List ConnEvent × Int :=
  connIntermediate 12 none none s pidtgid ts

/-- `trace_write_seq_init` (lines 498-519): branch 13. -/
def trace_write_seq_init (s : ConnState) (pidtgid ts : Nat) :
    ConnState × List ConnEvent × Int :=
  connIntermediate 13 none none s pidtgid ts

/-- `trace_error_path` (lines 522-548): branch 20, `PATH_ERROR`. -/
def trace_error_path (s : ConnState) (pidtgid ts : Nat) :
    ConnState × List ConnEvent × Int :=
  connIntermediate 20 none (some 2) s pidtgid ts

/-- The mutation the return probe performs on the tracked event: set the
latency when a start time exists, refresh `ts_uptime_us`, take `error_code`
from the probed return value; on `error_code == 0` classify
`CONNECT_SUCCESS = 14` with `PATH_FAST = 0`, otherwise default a zero
`path_type` to `PATH_ERROR = 2`. -/
def connRetApply (ts : Nat) (rc : Int) (startv : Option Nat) (ev : ConnEvent) :
    ConnEvent :=
  let ev1 : ConnEvent := match startv with
    | some st => { ev with latency_ns := usub64 ts st }
    | none => ev
  let ev2 : ConnEvent := { ev1 with ts_uptime_us := ts / 1000, error_code := rc }
  if rc = 0 then { ev2 with branch_type := 14, path_type := 0 }
  else if ev2.path_type = 0 then { ev2 with path_type := 2 }
  else ev2

/-- `trace_tcp_v4_connect_return` (lines 551-590): on a tracking miss, fall
through with no effect; on a tracked event, delete the start time when one
exists, build the final event via `connRetApply`, submit it, and delete the
tracking record. -/
def trace_tcp_v4_connect_return (s : ConnState) (pidtgid ts : Nat) (rc : Int) :
    ConnState × List ConnEvent × Int :=
  let tid := pidtgid % 2 ^ 32
  match s.tracking.lookup tid with
  | none => (s, [], 0)
  | some ev =>
    let st2 : BpfHash Nat := match s.start_times.lookup tid with
      | some _ => s.start_times.delete tid
      | none => s.start_times
    (⟨st2, s.tracking.delete tid⟩,
      [connRetApply ts rc (s.start_times.lookup tid) ev], 0)

/-- The intermediate probe points of `tcp_v4_connect.bpf.c`. -/
inductive ConnProbe
  | invalid_addrlen | wrong_family | route_lookup | route_error
  | multicast_bcast | no_src_addr | src_bind_fail | port_alloc
  | hash_error | fastopen_defer | regular_syn | tcp_connect_err
  | enetunreach | new_sport | write_seq_init | error_path
deriving DecidableEq, Repr

/-- Dispatch an intermediate probe firing to its handler.  `rc` is the probed
register value, read only by the three handlers that use `PT_REGS_RC`. -/
def connMid (p : ConnProbe) (s : ConnState) (pidtgid ts : Nat) (rc : Int) :
    ConnState × List ConnEvent × Int :=
  match p with
  | .invalid_addrlen => trace_invalid_addrlen s pidtgid ts
  | .wrong_family => trace_wrong_family s pidtgid ts
  | .route_lookup => trace_route_lookup s pidtgid ts
  | .route_error => trace_route_error s pidtgid ts rc
  | .multicast_bcast => trace_multicast_bcast s pidtgid ts
  | .no_src_addr => trace_no_src_addr s pidtgid ts
  | .src_bind_fail => trace_src_bind_fail s pidtgid ts rc
  | .port_alloc => trace_port_alloc s pidtgid ts
  | .hash_error => trace_hash_error s pidtgid ts
  | .fastopen_defer => trace_fastopen_defer s pidtgid ts
  | .regular_syn => trace_regular_syn s pidtgid ts
  | .tcp_connect_err => trace_tcp_connect_err s pidtgid ts rc
  | .enetunreach => trace_enetunreach s pidtgid ts
  | .new_sport => trace_new_sport s pidtgid ts
  | .write_seq_init => trace_write_seq_init s pidtgid ts
  | .error_path => trace_error_path s pidtgid ts

/-- One observed probe firing on the connect path. -/
inductive ConnObs
  | entry (c : EntryCtx)
  | mid (p : ConnProbe) (pidtgid ts : Nat) (rc : Int)
  | ret (pidtgid ts : Nat) (rc : Int)
deriving DecidableEq, Repr

/-- The timestamp the firing hands to its handler (`bpf_ktime_get_ns`). -/
def ConnObs.obsTs : ConnObs → Nat
  | .entry c => c.ts
  | .mid _ _ ts _ => ts
  | .ret _ ts _ => ts

/-- Whether the firing is an intermediate (non-entry, non-return) probe. -/
def ConnObs.isMid : ConnObs → Bool
  | .mid _ _ _ _ => true
  | _ => false

/-- Run one probe firing. -/
def connStep (s : ConnState) : ConnObs → ConnState × List ConnEvent
  | .entry c =>
    let r := trace_tcp_v4_connect s c
    (r.1, r.2.1)
  | .mid p pidtgid ts rc =>
    let r := connMid p s pidtgid ts rc
    (r.1, r.2.1)
  | .ret pidtgid ts rc =>
    let r := trace_tcp_v4_connect_return s pidtgid ts rc
    (r.1, r.2.1)

/-- Run a sequence of probe firings, accumulating the submitted events. -/
def connRun (s : ConnState) : List ConnObs → ConnState × List ConnEvent
  | [] => (s, [])
  | o :: rest =>
    let r := connStep s o
    let r2 := connRun r.1 rest
    (r2.1, r.2 ++ r2.2)

/-- The branch constant each intermediate probe writes. -/
def midBranch : ConnProbe → Nat
  | .invalid_addrlen => 1
  | .wrong_family => 2
  | .route_lookup => 17
  | .route_error => 3
  | .multicast_bcast => 4
  | .no_src_addr => 5
  | .src_bind_fail => 15
  | .port_alloc => 18
  | .hash_error => 8
  | .fastopen_defer => 9
  | .regular_syn => 19
  | .tcp_connect_err => 10
  | .enetunreach => 11
  | .new_sport => 12
  | .write_seq_init => 13
  | .error_path => 20

/-- The `error_code` each intermediate probe writes (if any), given the
probed register value. -/
def midErr : ConnProbe → Int → Option Int
  | .invalid_addrlen, _ => some (-22)
  | .wrong_family, _ => some (-97)
  | .route_lookup, _ => none
  | .route_error, rc => some rc
  | .multicast_bcast, _ => some (-101)
  | .no_src_addr, _ => none
  | .src_bind_fail, rc => some rc
  | .port_alloc, _ => none
  | .hash_error, _ => none
  | .fastopen_defer, _ => none
  | .regular_syn, _ => none
  | .tcp_connect_err, rc => some rc
  | .enetunreach, _ => some (-101)
  | .new_sport, _ => none
  | .write_seq_init, _ => none
  | .error_path, _ => none

/-- The `path_type` each intermediate probe writes (if any). -/
def midPath : ConnProbe → Option Nat
  | .invalid_addrlen => some 2
  | .wrong_family => some 2
  | .route_lookup => none
  | .route_error => some 2
  | .multicast_bcast => some 2
  | .no_src_addr => none
  | .src_bind_fail => some 2
  | .port_alloc => none
  | .hash_error => some 2
  | .fastopen_defer => some 3
  | .regular_syn => some 1
  | .tcp_connect_err => some 2
  | .enetunreach => some 2
  | .new_sport => none
  | .write_seq_init => none
  | .error_path => some 2

/-- Count, along a run, the exit (return-probe) observations whose lookup in
the tracking map finds a live correlation record at the moment the exit
fires. -/
def countMatched (s : ConnState) : List ConnObs → Nat
  | [] => 0
  | o :: rest =>
    (match o with
      | .ret pidtgid _ _ =>
        if (s.tracking.lookup (pidtgid % 2 ^ 32)).isSome then 1 else 0
      | _ => 0)
    + countMatched (connStep s o).1 rest

/-- The correlation key of an entry observation. -/
def ConnObs.entryKey : ConnObs → Option Nat
  | .entry c => some (c.pidtgid % 2 ^ 32)
  | _ => none

/-- The correlation key of an exit (return-probe) observation. -/
def ConnObs.exitKey : ConnObs → Option Nat
  | .ret pidtgid _ _ => some (pidtgid % 2 ^ 32)
  | _ => none

/-- Each key is used by at most one entry/exit pair: no two entry
observations and no two exit observations share a correlation key. -/
def UniqueKeys (obs : List ConnObs) : Prop :=
  (obs.filterMap ConnObs.entryKey).Nodup ∧ (obs.filterMap ConnObs.exitKey).Nodup

end Connect

/-! ## The tcp_v4_rcv instrumentation (`tcp_v4_rcv.bpf.c` and its extended
variant with the full `TCP_BRANCH_*` 0..18 enumeration)

Every receive-path handler builds a fresh zero-initialized
`tcp_branch_event_t`, fills identity and timestamp, sets its branch constant
and (for drop branches) a `SKB_DROP_REASON_*` constant, and submits it.  The
receive handlers keep the full 64-bit pid/tgid (`u64 pid_tgid`), so no
truncation happens here. -/

namespace Rcv

/-- `tcp_branch_event_t`. -/
structure TcpBranchEvent where
  pid : Nat
  tgid : Nat
  ts_uptime_us : Nat
  branch_type : Nat
  drop_reason : Nat
  saddr : Nat
  daddr : Nat
  sport : Nat
  dport : Nat
  comm : String
deriving DecidableEq, Repr

/-- Ambient inputs of a receive-path probe firing: pid/tgid, timestamp, comm,
and (read only by the entry probe) the skb header fields. -/
structure RcvCtx where
  pidtgid : Nat
  ts : Nat
  comm : String
  saddr : Nat
  daddr : Nat
  sport : Nat
  dport : Nat
deriving DecidableEq, Repr

/-- The zero-initialized event with identity, timestamp and comm filled in,
shared by every receive-path handler body. -/
def rcvBaseEvent (c : RcvCtx) : TcpBranchEvent :=
  { pid := c.pidtgid % 2 ^ 32, tgid := c.pidtgid / 2 ^ 32,
    ts_uptime_us := c.ts / 1000, branch_type := 0, drop_reason := 0,
    saddr := 0, daddr := 0, sport := 0, dport := 0, comm := c.comm }

/-- `trace_tcp_v4_rcv` (entry): `TCP_BRANCH_ENTRY = 0`, `drop_reason = 0`,
enrichment fields read from the skb headers. -/
def trace_tcp_v4_rcv (c : RcvCtx) : TcpBranchEvent :=
  { rcvBaseEvent c with
    saddr := c.saddr, daddr := c.daddr, sport := c.sport, dport := c.dport }

/-- `trace_not_for_host`: branch 1, `SKB_DROP_REASON_NOT_SPECIFIED = 2`. -/
def trace_not_for_host (c : RcvCtx) : TcpBranchEvent :=
  { rcvBaseEvent c with branch_type := 1, drop_reason := 2 }

/-- `trace_no_socket`: branch 2, `SKB_DROP_REASON_NO_SOCKET = 3`. -/
def trace_no_socket (c : RcvCtx) : TcpBranchEvent :=
  { rcvBaseEvent c with branch_type := 2, drop_reason := 3 }

/-- `trace_time_wait`: branch 3, `drop_reason = 0`. -/
def trace_time_wait (c : RcvCtx) : TcpBranchEvent :=
  { rcvBaseEvent c with branch_type := 3 }

/-- `trace_checksum_error`: branch 4, `SKB_DROP_REASON_TCP_CSUM = 5`. -/
def trace_checksum_error (c : RcvCtx) : TcpBranchEvent :=
  { rcvBaseEvent c with branch_type := 4, drop_reason := 5 }

/-- `trace_listen_state`: branch 5, no drop reason set. -/
def trace_listen_state (c : RcvCtx) : TcpBranchEvent :=
  { rcvBaseEvent c with branch_type := 5 }

/-- `trace_socket_busy`: branch 6, no drop reason set. -/
def trace_socket_busy (c : RcvCtx) : TcpBranchEvent :=
  { rcvBaseEvent c with branch_type := 6 }

/-- `trace_xfrm_policy_drop`: branch 7, `SKB_DROP_REASON_XFRM_POLICY = 14`. -/
def trace_xfrm_policy_drop (c : RcvCtx) : TcpBranchEvent :=
  { rcvBaseEvent c with branch_type := 7, drop_reason := 14 }

/-- `trace_new_syn_recv`: branch 8, no drop reason set. -/
def trace_new_syn_recv (c : RcvCtx) : TcpBranchEvent :=
  { rcvBaseEvent c with branch_type := 8 }

/-- `trace_pkt_too_small`: branch 9, `SKB_DROP_REASON_PKT_TOO_SMALL = 4`. -/
def trace_pkt_too_small (c : RcvCtx) : TcpBranchEvent :=
  { rcvBaseEvent c with branch_type := 9, drop_reason := 4 }

/-- `trace_min_ttl_drop`: branch 10, `SKB_DROP_REASON_TCP_MINTTL = 70`. -/
def trace_min_ttl_drop (c : RcvCtx) : TcpBranchEvent :=
  { rcvBaseEvent c with branch_type := 10, drop_reason := 70 }

/-- `trace_socket_filter_drop`: branch 11,
`SKB_DROP_REASON_SOCKET_FILTER = 6`. -/
def trace_socket_filter_drop (c : RcvCtx) : TcpBranchEvent :=
  { rcvBaseEvent c with branch_type := 11, drop_reason := 6 }

/-- `trace_do_rcv_call`: branch 12, no drop reason set. -/
def trace_do_rcv_call (c : RcvCtx) : TcpBranchEvent :=
  { rcvBaseEvent c with branch_type := 12 }

/-- `trace_md5_fail`: branch 13, `SKB_DROP_REASON_NOT_SPECIFIED = 2`. -/
def trace_md5_fail (c : RcvCtx) : TcpBranchEvent :=
  { rcvBaseEvent c with branch_type := 13, drop_reason := 2 }

/-- `trace_backlog_add`: branch 14, no drop reason set. -/
def trace_backlog_add (c : RcvCtx) : TcpBranchEvent :=
  { rcvBaseEvent c with branch_type := 14 }

/-- `trace_req_stolen`: branch 15, no drop reason set. -/
def trace_req_stolen (c : RcvCtx) : TcpBranchEvent :=
  { rcvBaseEvent c with branch_type := 15 }

/-- `trace_listen_drop`: branch `TCP_BRANCH_LISTEN_DROP = 16`.  Note: the
handler sets no drop reason — the zero initialization is submitted. -/
def trace_listen_drop (c : RcvCtx) : TcpBranchEvent :=
  { rcvBaseEvent c with branch_type := 16 }

/-- `trace_rst_sent`: branch 17, no drop reason set. -/
def trace_rst_sent (c : RcvCtx) : TcpBranchEvent :=
  { rcvBaseEvent c with branch_type := 17 }

/-- `trace_established`: branch 18, no drop reason set. -/
def trace_established (c : RcvCtx) : TcpBranchEvent :=
  { rcvBaseEvent c with branch_type := 18 }

/-- All receive-path handlers, i.e. every producer of an emitted
`tcp_branch_event_t`. -/
def rcvHandlers : List (RcvCtx → TcpBranchEvent) :=
  [trace_tcp_v4_rcv, trace_not_for_host, trace_no_socket, trace_time_wait,
   trace_checksum_error, trace_listen_state, trace_socket_busy,
   trace_xfrm_policy_drop, trace_new_syn_recv, trace_pkt_too_small,
   trace_min_ttl_drop, trace_socket_filter_drop, trace_do_rcv_call,
   trace_md5_fail, trace_backlog_add, trace_req_stolen, trace_listen_drop,
   trace_rst_sent, trace_established]

/-- Modelled from the spec: the Branch Classifier's classification of a
receive-path Branch Outcome as a failing/drop outcome.  The code declares no
such predicate; following the spec's classifier description and the branch
names, the failing outcomes are the drop branches of `tcp_v4_rcv`:
not-for-host, no-socket, checksum-error, xfrm-policy-drop, packet-too-small,
min-TTL-drop, socket-filter-drop, MD5-failure and listen-drop. -/
def rcvFailingBranch (branch : Nat) : Bool :=
  branch = 1 ∨ branch = 2 ∨ branch = 4 ∨ branch = 7 ∨ branch = 9 ∨
    branch = 10 ∨ branch = 11 ∨ branch = 13 ∨ branch = 16

end Rcv

/-! ## The madvise/munmap instrumentation (`kprobe__do_madvise` /
`kretprobe__do_madvise`) -/

namespace Madvise

/-- `madvise_output_t`. -/
structure MadviseOut where
  tgid : Nat
  ts_ns : Nat
  address : Nat
  length : Nat
  advice : Int
deriving DecidableEq, Repr

/-- `kprobe__do_madvise` (entry): builds the zeroed record with the owner
tgid, timestamp, address, length and advice, and stores it with
`madvise_hash.insert` — BPF_NOEXIST, so a live record under the same key is
NOT overwritten — keyed by the truncated `u32 pid`.  `madvise_hash` is
declared with 32768 max entries. -/
def kprobe__do_madvise (s : BpfHash MadviseOut) (pidtgid ownerTgid ts addr len : Nat)
    (advice : Int) : BpfHash MadviseOut × Int :=
  let pid := pidtgid % 2 ^ 32
  (s.insert pid ⟨ownerTgid, ts, addr, len, advice⟩, 0)

/-- `kretprobe__do_madvise` (exit): as written, the handler deletes the
record when the probed return value is nonzero and then hits an unconditional
`return 0;`, so the subsequent lookup, `perf_submit` and delete (lines 37-42
of the source) are unreachable: on a zero return value the record is left
live and nothing is ever emitted. -/
def kretprobe__do_madvise (s : BpfHash MadviseOut) (pidtgid : Nat) (rc : Int) :
    BpfHash MadviseOut × List MadviseOut × Int :=
  let pid := pidtgid % 2 ^ 32
  if rc ≠ 0 then (s.delete pid, [], 0) else (s, [], 0)

/-- One observed probe firing on the madvise path. -/
inductive MadviseObs
  | entry (pidtgid ownerTgid ts addr len : Nat) (advice : Int)
  | exit (pidtgid : Nat) (rc : Int)
deriving DecidableEq, Repr

/-- Run one madvise probe firing on the `madvise_hash` store. -/
def madviseStep (s : BpfHash MadviseOut) : MadviseObs → BpfHash MadviseOut
  | .entry pidtgid ownerTgid ts addr len advice =>
    (kprobe__do_madvise s pidtgid ownerTgid ts addr len advice).1
  | .exit pidtgid rc => (kretprobe__do_madvise s pidtgid rc).1

/-- Run a sequence of madvise probe firings. -/
def madviseRun (s : BpfHash MadviseOut) : List MadviseObs → BpfHash MadviseOut
  | [] => s
  | o :: rest => madviseRun (madviseStep s o) rest

/-- The session-initial `madvise_hash`: empty, 32768 slots as declared. -/
def madviseInit : BpfHash MadviseOut :=
  BpfHash.empty 32768

end Madvise

/-! ## The page-fault instrumentation (`trace_handle_mm_fault_entry` /
`trace_handle_mm_fault_return`, with the `fault_entry` store of 10240
slots) -/

namespace Fault

/-- `page_fault_info_t`: the correlation record stored at entry. -/
structure FaultInfo where
  pid : Nat
  address : Nat
  flags : Nat
  ts_start : Nat
deriving DecidableEq, Repr

/-- `page_fault_event_t`. -/
structure FaultEvent where
  pid : Nat
  tgid : Nat
  ts_uptime_us : Nat
  address : Nat
  error_code : Nat
  is_major : Nat
  is_write : Nat
  is_exec : Nat
  comm : String
deriving DecidableEq, Repr

/-- `FAULT_FLAG_WRITE` (bit 0) and `FAULT_FLAG_INSTRUCTION` (bit 5) of the
kernel fault flags, as tested by the handlers. -/
def FAULT_FLAG_WRITE : Nat := 1

def FAULT_FLAG_INSTRUCTION : Nat := 32

/-- `trace_handle_mm_fault_entry`: store pid, address, flags and the start
timestamp under the truncated `u32 pid` with `fault_entry.update`. -/
def trace_handle_mm_fault_entry (s : BpfHash FaultInfo)
    (pidtgid address flags ts : Nat) : BpfHash FaultInfo × Int :=
  let pid := pidtgid % 2 ^ 32
  (s.update pid ⟨pid, address, flags, ts⟩, 0)

/-- `trace_handle_mm_fault_return` (lines 107-138 of the source): on a miss,
return with no effect; on `ret & VM_FAULT_ERROR` (bit 0x0001 as defined in
the file), delete the record and return without emitting; otherwise build the
event — timestamp from the stored entry time (`info->ts_start / 1000`), major
bit from `ret & VM_FAULT_MAJOR` (0x0200), write/exec bits from the stored
flags — submit it and delete the record. -/
def trace_handle_mm_fault_return (s : BpfHash FaultInfo) (pidtgid ret : Nat)
    (comm : String) : BpfHash FaultInfo × List FaultEvent × Int :=
  let pid := pidtgid % 2 ^ 32
  match s.lookup pid with
  | none => (s, [], 0)
  | some info =>
    if ret &&& 1 ≠ 0 then (s.delete pid, [], 0)
    else
      (s.delete pid,
        [{ pid := info.pid, tgid := pidtgid / 2 ^ 32,
           ts_uptime_us := info.ts_start / 1000, address := info.address,
           error_code := 0,
           is_major := if ret &&& 512 ≠ 0 then 1 else 0,
           is_write := if info.flags &&& FAULT_FLAG_WRITE ≠ 0 then 1 else 0,
           is_exec := if info.flags &&& FAULT_FLAG_INSTRUCTION ≠ 0 then 1 else 0,
           comm := comm }], 0)

/-- One observed probe firing on the page-fault path. -/
inductive FaultObs
  | entry (pidtgid address flags ts : Nat)
  | exit (pidtgid ret : Nat) (comm : String)
deriving DecidableEq, Repr

/-- Run one page-fault probe firing on the `fault_entry` store. -/
def faultStep (s : BpfHash FaultInfo) : FaultObs → BpfHash FaultInfo
  | .entry pidtgid address flags ts =>
    (trace_handle_mm_fault_entry s pidtgid address flags ts).1
  | .exit pidtgid ret comm => (trace_handle_mm_fault_return s pidtgid ret comm).1

/-- Run a sequence of page-fault probe firings. -/
def faultRun (s : BpfHash FaultInfo) : List FaultObs → BpfHash FaultInfo
  | [] => s
  | o :: rest => faultRun (faultStep s o) rest

/-- The session-initial `fault_entry` store: empty, 10240 slots as
declared. -/
def faultInit : BpfHash FaultInfo :=
  BpfHash.empty 10240

end Fault

/-! ## The rss_stat tracepoint pair -/

namespace Rss

/-- `rss_stat_output_t`. -/
structure RssOut where
  pid : Nat
  tgid : Nat
  ts : Nat
  member : Int
  counter_value : Nat
deriving DecidableEq, Repr

/-- `RAW_TRACEPOINT_PROBE(rss_stat)`: store the zeroed record with the
mm-owner identity under the truncated `u32 pid`, via
`rss_stat_hash.insert`. -/
def rss_stat_raw (s : BpfHash RssOut) (pidtgid ownerPid ownerTgid : Nat) :
    BpfHash RssOut × Int :=
  let pid := pidtgid % 2 ^ 32
  (s.insert pid ⟨ownerPid, ownerTgid, 0, 0, 0⟩, 0)

/-- `TRACEPOINT_PROBE(kmem, rss_stat)` (lines 33-47 of the source): on a
miss, return with no effect; on a hit, fill member, `counter_value =
size >> PAGE_SZ` (12) and the timestamp through the stored pointer, submit
the record, and delete it. -/
def rss_stat_tp (s : BpfHash RssOut) (pidtgid : Nat) (member : Int)
    (size ts : Nat) : BpfHash RssOut × List RssOut × Int :=
  let pid := pidtgid % 2 ^ 32
  match s.lookup pid with
  | none => (s, [], 0)
  | some d =>
    let d2 : RssOut := { d with member := member, counter_value := size / 2 ^ 12, ts := ts }
    (s.delete pid, [d2], 0)

end Rss

/-! ## Aggregate counter increments under concurrency

The spec's Aggregate Counter Table contract is about the increment operation
itself, so the increment is embedded as a small interleaving machine: the
counter cell is shared state; each execution context runs a tiny program of
indivisible steps.  `__sync_fetch_and_add(&stats->total_calls, 1)` from
`trace_tcp_rcv_state_process` is one indivisible add step.  The
`u64* count = branch_stats.lookup(...); (*count)++;` pattern of
`trace_tcp_v4_connect` (lines 109-111) is a load of the cell into a register
followed by a store of the incremented register: two separately schedulable
steps. -/

namespace Ctr

/-- One schedulable machine step of a counter-incrementing context. -/
inductive CounterOp
  | atomicAdd
  | load
  | storeInc
deriving DecidableEq, Repr

/-- An execution context: its remaining steps and its private register. -/
structure CtrThread where
  prog : List CounterOp
  reg : Nat
deriving DecidableEq, Repr

/-- The shared counter cell plus the concurrent contexts. -/
structure CtrSys where
  counter : Nat
  threads : List CtrThread
deriving DecidableEq, Repr

/-- A context performing `__sync_fetch_and_add(&ctr, 1)` — one indivisible
step (`trace_tcp_rcv_state_process`). -/
def atomicIncThread : CtrThread :=
  ⟨[CounterOp.atomicAdd], 0⟩

/-- A context performing `(*count)++` — a load followed by a store of the
incremented value (`trace_tcp_v4_connect`, lines 109-111). -/
def rmwIncThread : CtrThread :=
  ⟨[CounterOp.load, CounterOp.storeInc], 0⟩

/-- Execute the next step of context `i` (no effect if `i` is out of range or
the context has finished). -/
def ctrStep (s : CtrSys) (i : Nat) : CtrSys :=
  match s.threads.get? i with
  | none => s
  | some t =>
    match t.prog with
    | [] => s
    | CounterOp.atomicAdd :: rest =>
      ⟨s.counter + 1, s.threads.set i ⟨rest, t.reg⟩⟩
    | CounterOp.load :: rest =>
      ⟨s.counter, s.threads.set i ⟨rest, s.counter⟩⟩
    | CounterOp.storeInc :: rest =>
      ⟨t.reg + 1, s.threads.set i ⟨rest, t.reg⟩⟩

/-- Run a schedule: an arbitrary interleaving of the contexts' steps. -/
def ctrRun (s : CtrSys) : List Nat → CtrSys
  | [] => s
  | i :: rest => ctrRun (ctrStep s i) rest

/-- A system in which every context has run to completion. -/
def Finished (s : CtrSys) : Prop :=
  ∀ t ∈ s.threads, t.prog = []

instance : DecidablePred Finished := by
  intro s
  unfold Finished
  infer_instance

end Ctr

/-! ## Arithmetic and map lemmas -/

theorem usub64_eq_sub {a b : Nat} (hb : b ≤ a) (ha : a < 2 ^ 64) :
    usub64 a b = a - b := by
  have hb' : b < 2 ^ 64 := lt_of_le_of_lt hb ha
  unfold usub64
  rw [Nat.mod_eq_of_lt ha, Nat.mod_eq_of_lt hb']
  have h1 : 2 ^ 64 + a - b = 2 ^ 64 + (a - b) := by omega
  rw [h1, Nat.add_mod_left, Nat.mod_eq_of_lt (by omega)]

theorem usub64_ne_zero {a b : Nat} (hb : b < a) (ha : a < 2 ^ 64) :
    usub64 a b ≠ 0 := by
  rw [usub64_eq_sub (le_of_lt hb) ha]
  omega

namespace BpfHash

variable {V : Type}

theorem lookupA_isSome_iff_mem {l : List (Nat × V)} {k : Nat} :
    (lookupA l k).isSome ↔ k ∈ l.map Prod.fst := by
  induction l with
  | nil => simp [lookupA]
  | cons p rest ih =>
    by_cases h : p.1 = k
    · subst h
      simp [lookupA]
    · have hne : k ≠ p.1 := fun hk => h hk.symm
      simp [lookupA, h, ih, hne]

theorem lookup_isSome_iff_mem_keys {m : BpfHash V} {k : Nat} :
    (m.lookup k).isSome ↔ k ∈ m.keys :=
  lookupA_isSome_iff_mem

theorem lookupA_replaceA_self {l : List (Nat × V)} {k : Nat} {v : V}
    (h : (lookupA l k).isSome) : lookupA (replaceA l k v) k = some v := by
  induction l with
  | nil => simp [lookupA] at h
  | cons p rest ih =>
    by_cases hp : p.1 = k
    · simp [replaceA, hp, lookupA]
    · simp only [lookupA, hp, if_false] at h
      simp [replaceA, hp, lookupA, ih h]

theorem lookupA_replaceA_ne {l : List (Nat × V)} {k k' : Nat} {v : V}
    (h : k' ≠ k) : lookupA (replaceA l k v) k' = lookupA l k' := by
  induction l with
  | nil => simp [replaceA]
  | cons p rest ih =>
    by_cases hp : p.1 = k
    · have h1 : ¬ (k = k') := fun hh => h hh.symm
      have h2 : ¬ (p.1 = k') := by rw [hp]; exact h1
      simp [replaceA, hp, lookupA, h1, h2, ih]
    · by_cases hp' : p.1 = k'
      · simp [replaceA, hp, lookupA, hp', h, fun hh => h hh]
      · simp [replaceA, hp, lookupA, hp', ih]

theorem lookup_update_self {m : BpfHash V} {k : Nat} {v : V}
    (h : (m.lookup k).isSome ∨ m.entries.length < m.cap) :
    (m.update k v).lookup k = some v := by
  unfold update
  split_ifs with h1 h2
  · simp only [lookup]
    exact lookupA_replaceA_self h1
  · simp [lookup, lookupA]
  · rcases h with h | h
    · exact absurd h h1
    · exact absurd h h2

theorem lookup_update_ne {m : BpfHash V} {k k' : Nat} {v : V} (h : k' ≠ k) :
    (m.update k v).lookup k' = m.lookup k' := by
  unfold update
  split_ifs with h1 h2
  · simp only [lookup]
    exact lookupA_replaceA_ne h
  · simp only [lookup, lookupA]
    rw [if_neg (show ¬ ((k, v).1 = k') from fun hh => h hh.symm)]
  · rfl

theorem update_of_full {m : BpfHash V} {k : Nat} {v : V}
    (h1 : m.lookup k = none) (h2 : ¬ m.entries.length < m.cap) :
    m.update k v = m := by
  simp [update, h1, h2]

theorem lookupA_eraseA_self {l : List (Nat × V)} {k : Nat} :
    lookupA (eraseA l k) k = none := by
  induction l with
  | nil => simp [eraseA, lookupA]
  | cons p rest ih =>
    by_cases hp : p.1 = k
    · simp [eraseA, hp, ih]
    · simp [eraseA, hp, lookupA, ih]

theorem lookup_delete_self {m : BpfHash V} {k : Nat} :
    (m.delete k).lookup k = none :=
  lookupA_eraseA_self

theorem lookupA_eraseA_ne {l : List (Nat × V)} {k k' : Nat} (h : k' ≠ k) :
    lookupA (eraseA l k) k' = lookupA l k' := by
  induction l with
  | nil => simp [eraseA]
  | cons p rest ih =>
    by_cases hp : p.1 = k
    · have he : eraseA (p :: rest) k = eraseA rest k := by simp [eraseA, hp]
      have h2 : ¬ (p.1 = k') := by rw [hp]; exact fun hh => h hh.symm
      rw [he, ih]
      conv_rhs => rw [lookupA]
      rw [if_neg h2]
    · have he : eraseA (p :: rest) k = p :: eraseA rest k := by simp [eraseA, hp]
      rw [he]
      simp only [lookupA, ih]

theorem lookup_delete_ne {m : BpfHash V} {k k' : Nat} (h : k' ≠ k) :
    (m.delete k).lookup k' = m.lookup k' :=
  lookupA_eraseA_ne h

theorem map_fst_replaceA {l : List (Nat × V)} {k : Nat} {v : V} :
    (replaceA l k v).map Prod.fst = l.map Prod.fst := by
  induction l with
  | nil => simp [replaceA]
  | cons p rest ih =>
    by_cases hp : p.1 = k
    · simp [replaceA, hp, ih]
    · simp [replaceA, hp, ih]

theorem map_fst_eraseA {l : List (Nat × V)} {k : Nat} :
    (eraseA l k).map Prod.fst = (l.map Prod.fst).filter (fun x => x ≠ k) := by
  induction l with
  | nil => simp [eraseA]
  | cons p rest ih =>
    by_cases hp : p.1 = k
    · simp [eraseA, hp, ih]
    · simp [eraseA, hp, ih]

theorem keys_update {m : BpfHash V} {k : Nat} {v : V} :
    (m.update k v).keys =
      if (m.lookup k).isSome then m.keys
      else if m.entries.length < m.cap then k :: m.keys
      else m.keys := by
  unfold update
  split_ifs with h1 h2
  · simp [keys, map_fst_replaceA]
  · simp [keys]
  · rfl

theorem keys_delete {m : BpfHash V} {k : Nat} :
    (m.delete k).keys = m.keys.filter (fun x => x ≠ k) := by
  simp [delete, keys, map_fst_eraseA]

theorem cap_update {m : BpfHash V} {k : Nat} {v : V} :
    (m.update k v).cap = m.cap := by
  unfold update
  split_ifs <;> rfl

theorem cap_delete {m : BpfHash V} {k : Nat} :
    (m.delete k).cap = m.cap := rfl

theorem length_replaceA {l : List (Nat × V)} {k : Nat} {v : V} :
    (replaceA l k v).length = l.length := by
  induction l with
  | nil => rfl
  | cons p rest ih =>
    by_cases hp : p.1 = k <;> simp [replaceA, hp, ih]

theorem length_eraseA_le {l : List (Nat × V)} {k : Nat} :
    (eraseA l k).length ≤ l.length := by
  induction l with
  | nil => simp [eraseA]
  | cons p rest ih =>
    by_cases hp : p.1 = k
    · simp only [eraseA, hp, if_true]
      simp only [List.length_cons]
      omega
    · simp only [eraseA, hp, if_false, List.length_cons]
      omega

theorem bounded_empty {cap : Nat} : Bounded (empty cap : BpfHash V) := by
  simp [Bounded, empty]

theorem bounded_update {m : BpfHash V} {k : Nat} {v : V}
    (h : Bounded m) : Bounded (m.update k v) := by
  unfold Bounded update at *
  split_ifs with h1 h2
  · simpa [length_replaceA] using h
  · simpa using (by omega : m.entries.length + 1 ≤ m.cap)
  · exact h

theorem bounded_insert {m : BpfHash V} {k : Nat} {v : V}
    (h : Bounded m) : Bounded (m.insert k v) := by
  unfold Bounded insert at *
  split_ifs with h1 h2
  · exact h
  · simpa using (by omega : m.entries.length + 1 ≤ m.cap)
  · exact h

theorem bounded_delete {m : BpfHash V} {k : Nat}
    (h : Bounded m) : Bounded (m.delete k) := by
  unfold Bounded delete at *
  calc (eraseA m.entries k).length ≤ m.entries.length := length_eraseA_le
    _ ≤ m.cap := h

theorem insert_of_full {m : BpfHash V} {k : Nat} {v : V}
    (h1 : m.lookup k = none) (h2 : ¬ m.entries.length < m.cap) :
    m.insert k v = m := by
  simp [insert, h1, h2]

theorem lookup_update_cases {m : BpfHash V} {k k' : Nat} {v w : V}
    (h : (m.update k v).lookup k' = some w) : w = v ∨ m.lookup k' = some w := by
  by_cases hk : k' = k
  · subst hk
    by_cases hs : (m.lookup k').isSome
    · left
      rw [lookup_update_self (Or.inl hs)] at h
      exact (Option.some_inj.mp h).symm
    · by_cases hr : m.entries.length < m.cap
      · left
        rw [lookup_update_self (Or.inr hr)] at h
        exact (Option.some_inj.mp h).symm
      · right
        rw [update_of_full (Option.not_isSome_iff_eq_none.mp hs) hr] at h
        exact h
  · right
    rw [lookup_update_ne hk] at h
    exact h

theorem lookup_delete_cases {m : BpfHash V} {k k' : Nat} {w : V}
    (h : (m.delete k).lookup k' = some w) : m.lookup k' = some w := by
  by_cases hk : k' = k
  · subst hk
    rw [lookup_delete_self] at h
    exact absurd h (by simp)
  · rw [lookup_delete_ne hk] at h
    exact h

theorem replaceA_replaceA {l : List (Nat × V)} {k : Nat} {v1 v2 : V} :
    replaceA (replaceA l k v1) k v2 = replaceA l k v2 := by
  induction l with
  | nil => rfl
  | cons p rest ih =>
    by_cases hp : p.1 = k
    · simp [replaceA, hp, ih]
    · simp [replaceA, hp, ih]

theorem replaceA_of_none {l : List (Nat × V)} {k : Nat} {v : V}
    (h : lookupA l k = none) : replaceA l k v = l := by
  induction l with
  | nil => rfl
  | cons p rest ih =>
    by_cases hp : p.1 = k
    · simp [lookupA, hp] at h
    · simp only [lookupA, hp, if_false] at h
      simp [replaceA, hp, ih h]

theorem isSome_of_keysEq {V W : Type} {m1 : BpfHash V} {m2 : BpfHash W}
    {k : Nat} (hkeys : m1.keys = m2.keys) (h : (m2.lookup k).isSome) :
    (m1.lookup k).isSome := by
  rw [lookup_isSome_iff_mem_keys] at h ⊢
  rw [hkeys]
  exact h

theorem keys_length {m : BpfHash V} : m.keys.length = m.entries.length := by
  simp [keys]

/-- Updating the same key in two maps with equal key lists and equal
capacities keeps the key lists equal. -/
theorem keysEq_update {V W : Type} {m1 : BpfHash V} {m2 : BpfHash W} {k : Nat}
    {v : V} {w : W} (hkeys : m1.keys = m2.keys) (hcap : m1.cap = m2.cap) :
    (m1.update k v).keys = (m2.update k w).keys := by
  have hlen : m1.entries.length = m2.entries.length := by
    rw [← keys_length, ← @keys_length W m2, hkeys]
  rw [keys_update, keys_update]
  by_cases hs : (m2.lookup k).isSome
  · have hs1 : (m1.lookup k).isSome := isSome_of_keysEq hkeys hs
    simp [hs, hs1, hkeys]
  · have hs1 : ¬ (m1.lookup k).isSome := fun h => hs (isSome_of_keysEq hkeys.symm h)
    simp only [hs, hs1, if_false]
    rw [hlen, hcap]
    by_cases hr : m2.entries.length < m2.cap
    · simp [hr, hkeys]
    · simp [hr, hkeys]

/-- Deleting the same key in two maps with equal key lists keeps the key
lists equal. -/
theorem keysEq_delete {V W : Type} {m1 : BpfHash V} {m2 : BpfHash W} {k : Nat}
    (hkeys : m1.keys = m2.keys) : (m1.delete k).keys = (m2.delete k).keys := by
  rw [keys_delete, keys_delete, hkeys]

/-- `update` is insert-or-overwrite: a second `update` of the same key fully
supersedes the first. -/
theorem update_update_self {m : BpfHash V} {k : Nat} {v1 v2 : V} :
    (m.update k v1).update k v2 = m.update k v2 := by
  by_cases hs : (m.lookup k).isSome
  · have e1 : m.update k v1 = ⟨m.cap, replaceA m.entries k v1⟩ := by
      simp [update, hs]
    have hs1 : ((⟨m.cap, replaceA m.entries k v1⟩ : BpfHash V).lookup k).isSome := by
      simp only [lookup]
      rw [lookupA_replaceA_self hs]
      rfl
    rw [e1]
    simp only [update, hs1, if_true, hs]
    exact congrArg _ replaceA_replaceA
  · have hn : m.lookup k = none := Option.not_isSome_iff_eq_none.mp hs
    by_cases hr : m.entries.length < m.cap
    · have e1 : m.update k v1 = ⟨m.cap, (k, v1) :: m.entries⟩ := by
        simp [update, hn, hr]
      have hs1 : ((⟨m.cap, (k, v1) :: m.entries⟩ : BpfHash V).lookup k).isSome := by
        simp [lookup, lookupA]
      rw [e1]
      simp only [update, hs1, if_true, hn, Option.isSome_none, Bool.false_eq_true,
        if_false, hr, if_true]
      have : replaceA ((k, v1) :: m.entries) k v2 = (k, v2) :: m.entries := by
        simp [replaceA, replaceA_of_none hn]
      rw [this]
    · rw [update_of_full hn hr]

end BpfHash

/-! ## Connect-path lemmas -/

namespace Connect

theorem connMid_eq (p : ConnProbe) (s : ConnState) (pidtgid ts : Nat) (rc : Int) :
    connMid p s pidtgid ts rc =
      connIntermediate (midBranch p) (midErr p rc) (midPath p) s pidtgid ts := by
  cases p <;> rfl

theorem connMidApply_tgid {b : Nat} {eu : Option Int} {pu : Option Nat}
    {ts : Nat} {st : Option Nat} {ev : ConnEvent} :
    (connMidApply b eu pu ts st ev).tgid = ev.tgid := by
  unfold connMidApply
  cases st <;> cases eu <;> cases pu <;> rfl

theorem connMidApply_branch {b : Nat} {eu : Option Int} {pu : Option Nat}
    {ts : Nat} {st : Option Nat} {ev : ConnEvent} :
    (connMidApply b eu pu ts st ev).branch_type = b := by
  unfold connMidApply
  cases st <;> cases eu <;> cases pu <;> rfl

theorem connRetApply_tgid {ts : Nat} {rc : Int} {st : Option Nat}
    {ev : ConnEvent} : (connRetApply ts rc st ev).tgid = ev.tgid := by
  unfold connRetApply
  cases st <;> by_cases h : rc = 0 <;> simp [h, apply_ite]

theorem connRetApply_branch_eq {ts : Nat} {rc : Int} {st : Option Nat}
    {ev : ConnEvent} : (connRetApply ts rc st ev).branch_type =
      if rc = 0 then 14 else ev.branch_type := by
  unfold connRetApply
  cases st <;> by_cases h : rc = 0 <;> simp [h, apply_ite]

theorem connRetApply_branch {ts : Nat} {rc : Int} {st : Option Nat}
    {ev : ConnEvent} : (connRetApply ts rc st ev).branch_type = 14 ∨
      (connRetApply ts rc st ev).branch_type = ev.branch_type := by
  rw [connRetApply_branch_eq]
  by_cases h : rc = 0 <;> simp [h]

theorem connEntryEvent_tgid {c : EntryCtx} : (connEntryEvent c).tgid = 0 := by
  unfold connEntryEvent
  exact Nat.div_eq_of_lt (Nat.mod_lt _ (by norm_num))

/-- One step of the connect machine preserves any predicate `P` on events
that holds of every entry event and is preserved by the intermediate and
return mutations; both the submitted events and the tracked records
satisfy `P`. -/
theorem connStep_pred (P : ConnEvent → Prop)
    (hEntry : ∀ c, P (connEntryEvent c))
    (hMid : ∀ (p : ConnProbe) (rc : Int) (ts : Nat) (st : Option Nat)
      (ev : ConnEvent), P ev →
      P (connMidApply (midBranch p) (midErr p rc) (midPath p) ts st ev))
    (hRet : ∀ (ts : Nat) (rc : Int) (st : Option Nat) (ev : ConnEvent),
      P ev → P (connRetApply ts rc st ev))
    (s : ConnState) (o : ConnObs)
    (hs : ∀ k ev, s.tracking.lookup k = some ev → P ev) :
    (∀ ev ∈ (connStep s o).2, P ev) ∧
    (∀ k ev, (connStep s o).1.tracking.lookup k = some ev → P ev) := by
  cases o with
  | entry c =>
    constructor
    · intro ev hev
      simp only [connStep, trace_tcp_v4_connect] at hev
      simp only [List.mem_singleton] at hev
      subst hev
      exact hEntry c
    · intro k ev hl
      simp only [connStep, trace_tcp_v4_connect] at hl
      rcases BpfHash.lookup_update_cases hl with h | h
      · subst h
        exact hEntry c
      · exact hs _ _ h
  | mid p pidtgid ts rc =>
    rw [show connStep s (ConnObs.mid p pidtgid ts rc) =
      (let r := connIntermediate (midBranch p) (midErr p rc) (midPath p) s pidtgid ts
       (r.1, r.2.1)) by simp [connStep, connMid_eq]]
    simp only [connIntermediate]
    cases hl : s.tracking.lookup (pidtgid % 2 ^ 32) with
    | none =>
      constructor
      · intro ev hev
        simp at hev
      · intro k ev h
        exact hs _ _ h
    | some ev0 =>
      constructor
      · intro ev hev
        simp only [List.mem_singleton] at hev
        subst hev
        exact hMid p rc ts _ ev0 (hs _ _ hl)
      · intro k ev h
        rcases BpfHash.lookup_update_cases h with h | h
        · subst h
          exact hMid p rc ts _ ev0 (hs _ _ hl)
        · exact hs _ _ h
  | ret pidtgid ts rc =>
    simp only [connStep, trace_tcp_v4_connect_return]
    cases hl : s.tracking.lookup (pidtgid % 2 ^ 32) with
    | none =>
      constructor
      · intro ev hev
        simp at hev
      · intro k ev h
        exact hs _ _ h
    | some ev0 =>
      constructor
      · intro ev hev
        simp only [List.mem_singleton] at hev
        subst hev
        exact hRet ts rc _ ev0 (hs _ _ hl)
      · intro k ev h
        exact hs _ _ (BpfHash.lookup_delete_cases h)

/-- Any run of the connect machine from a state whose tracked records satisfy
`P` submits only events satisfying `P`. -/
theorem connRun_pred (P : ConnEvent → Prop)
    (hEntry : ∀ c, P (connEntryEvent c))
    (hMid : ∀ (p : ConnProbe) (rc : Int) (ts : Nat) (st : Option Nat)
      (ev : ConnEvent), P ev →
      P (connMidApply (midBranch p) (midErr p rc) (midPath p) ts st ev))
    (hRet : ∀ (ts : Nat) (rc : Int) (st : Option Nat) (ev : ConnEvent),
      P ev → P (connRetApply ts rc st ev)) :
    ∀ (obs : List ConnObs) (s : ConnState),
      (∀ k ev, s.tracking.lookup k = some ev → P ev) →
      ∀ ev ∈ (connRun s obs).2, P ev := by
  intro obs
  induction obs with
  | nil =>
    intro s hs ev hev
    simp [connRun] at hev
  | cons o rest ih =>
    intro s hs ev hev
    have hstep := connStep_pred P hEntry hMid hRet s o hs
    simp only [connRun, List.mem_append] at hev
    rcases hev with hev | hev
    · exact hstep.1 ev hev
    · exact ih (connStep s o).1 hstep.2 ev hev

theorem connInit_tracking_lookup {k : Nat} :
    connInit.tracking.lookup k = none := rfl

theorem connRetApply_latency {ts : Nat} {rc : Int} {st : Nat} {ev : ConnEvent} :
    (connRetApply ts rc (some st) ev).latency_ns = usub64 ts st := by
  unfold connRetApply
  by_cases h : rc = 0 <;> simp [h, apply_ite]

theorem connRun_snd_cons {s : ConnState} {o : ConnObs} {rest : List ConnObs} :
    (connRun s (o :: rest)).2 =
      (connStep s o).2 ++ (connRun (connStep s o).1 rest).2 := rfl

theorem connStep_entry {s : ConnState} {c : EntryCtx} :
    connStep s (ConnObs.entry c) =
      (⟨s.start_times.update (c.pidtgid % 2 ^ 32) c.ts,
        s.tracking.update (c.pidtgid % 2 ^ 32) (connEntryEvent c)⟩,
       [connEntryEvent c]) := rfl

theorem connStep_ret_none {s : ConnState} {g ts : Nat} {rc : Int}
    (h : s.tracking.lookup (g % 2 ^ 32) = none) :
    connStep s (ConnObs.ret g ts rc) = (s, []) := by
  simp only [connStep, trace_tcp_v4_connect_return, h]

theorem connStep_ret_some {s : ConnState} {g ts : Nat} {rc : Int}
    {ev : ConnEvent} {t0 : Nat}
    (h : s.tracking.lookup (g % 2 ^ 32) = some ev)
    (h2 : s.start_times.lookup (g % 2 ^ 32) = some t0) :
    connStep s (ConnObs.ret g ts rc) =
      (⟨s.start_times.delete (g % 2 ^ 32), s.tracking.delete (g % 2 ^ 32)⟩,
       [connRetApply ts rc (some t0) ev]) := by
  simp only [connStep, trace_tcp_v4_connect_return, h, h2]

theorem countMatched_cons_entry {s : ConnState} {c : EntryCtx}
    {rest : List ConnObs} :
    countMatched s (ConnObs.entry c :: rest) =
      countMatched (connStep s (ConnObs.entry c)).1 rest := by
  simp [countMatched]

theorem countMatched_cons_ret {s : ConnState} {g ts : Nat} {rc : Int}
    {rest : List ConnObs} :
    countMatched s (ConnObs.ret g ts rc :: rest) =
      (if (s.tracking.lookup (g % 2 ^ 32)).isSome then 1 else 0) +
        countMatched (connStep s (ConnObs.ret g ts rc)).1 rest := rfl

/-- The counting invariant for entry/exit-only runs: along any run with
strictly increasing 64-bit timestamps, from a state in which the two
correlation maps hold the same keys (with equal capacities), every tracked
event still carries its zero entry latency, and every stored start time
precedes every remaining observation, the number of submitted events with a
non-null latency equals the number of return firings whose tracking lookup
found a live record. -/
theorem connCount_aux : ∀ (obs : List ConnObs) (s : ConnState),
    (∀ o ∈ obs, o.isMid = false) →
    ((obs.map ConnObs.obsTs).Pairwise (· < ·)) →
    (∀ o ∈ obs, o.obsTs < 2 ^ 64) →
    s.start_times.keys = s.tracking.keys →
    s.start_times.cap = s.tracking.cap →
    (∀ k ev, s.tracking.lookup k = some ev → ev.latency_ns = 0) →
    (∀ k t, s.start_times.lookup k = some t →
      t < 2 ^ 64 ∧ ∀ o ∈ obs, t < o.obsTs) →
    ((connRun s obs).2.countP (fun e => e.latency_ns != 0)) =
      countMatched s obs := by
  intro obs
  induction obs with
  | nil =>
    intro s _ _ _ _ _ _ _
    rfl
  | cons o rest ih =>
    intro s hnm hpw hbd hkeys hcap hlat hts
    have hnm2 : ∀ o' ∈ rest, o'.isMid = false :=
      fun o' h => hnm o' (List.mem_cons_of_mem _ h)
    rw [List.map_cons, List.pairwise_cons] at hpw
    have hhead : ∀ o' ∈ rest, o.obsTs < o'.obsTs :=
      fun o' h => hpw.1 _ (List.mem_map_of_mem _ h)
    have hpw2 := hpw.2
    have hbd2 : ∀ o' ∈ rest, o'.obsTs < 2 ^ 64 :=
      fun o' h => hbd o' (List.mem_cons_of_mem _ h)
    cases o with
    | mid p g ts rc =>
      have hm := hnm _ (List.mem_cons_self _ _)
      simp [ConnObs.isMid] at hm
    | entry c =>
      rw [connRun_snd_cons, List.countP_append, countMatched_cons_entry]
      have hemit : ((connStep s (ConnObs.entry c)).2.countP
          (fun e => e.latency_ns != 0)) = 0 := by
        rw [connStep_entry]
        simp [connEntryEvent]
      rw [hemit]
      have hk2 : (connStep s (ConnObs.entry c)).1.start_times.keys =
          (connStep s (ConnObs.entry c)).1.tracking.keys :=
        BpfHash.keysEq_update hkeys hcap
      have hc2 : (connStep s (ConnObs.entry c)).1.start_times.cap =
          (connStep s (ConnObs.entry c)).1.tracking.cap := by
        rw [connStep_entry]
        simp only [BpfHash.cap_update]
        exact hcap
      have hl2 : ∀ k ev, (connStep s (ConnObs.entry c)).1.tracking.lookup k =
          some ev → ev.latency_ns = 0 := by
        intro k ev h
        rcases BpfHash.lookup_update_cases h with h | h
        · rw [h]
          rfl
        · exact hlat _ _ h
      have ht2 : ∀ k t, (connStep s (ConnObs.entry c)).1.start_times.lookup k =
          some t → t < 2 ^ 64 ∧ ∀ o' ∈ rest, t < o'.obsTs := by
        intro k t h
        rcases BpfHash.lookup_update_cases h with h | h
        · subst h
          refine ⟨hbd _ (List.mem_cons_self _ _), ?_⟩
          intro o' h'
          exact hhead o' h'
        · obtain ⟨h1, h2⟩ := hts _ _ h
          exact ⟨h1, fun o' h' => h2 o' (List.mem_cons_of_mem _ h')⟩
      rw [ih _ hnm2 hpw2 hbd2 hk2 hc2 hl2 ht2]
      omega
    | ret g ts rc =>
      cases hl : s.tracking.lookup (g % 2 ^ 32) with
      | none =>
        have hstep := @connStep_ret_none s g ts rc hl
        rw [connRun_snd_cons, List.countP_append, countMatched_cons_ret, hstep,
          hl]
        have ht2 : ∀ k t, s.start_times.lookup k = some t →
            t < 2 ^ 64 ∧ ∀ o' ∈ rest, t < o'.obsTs := by
          intro k t h
          obtain ⟨h1, h2⟩ := hts _ _ h
          exact ⟨h1, fun o' h' => h2 o' (List.mem_cons_of_mem _ h')⟩
        rw [ih _ hnm2 hpw2 hbd2 hkeys hcap hlat ht2]
        simp
      | some ev =>
        have hs2 : (s.start_times.lookup (g % 2 ^ 32)).isSome := by
          apply BpfHash.isSome_of_keysEq hkeys
          rw [hl]
          rfl
        obtain ⟨t0, ht0⟩ := Option.isSome_iff_exists.mp hs2
        have hstep := @connStep_ret_some s g ts rc ev t0 hl ht0
        obtain ⟨ht64, htlt⟩ := hts _ _ ht0
        have ht0lt : t0 < ts := htlt _ (List.mem_cons_self _ _)
        have htslt : ts < 2 ^ 64 := hbd _ (List.mem_cons_self _ _)
        have hlatne : (connRetApply ts rc (some t0) ev).latency_ns ≠ 0 := by
          rw [connRetApply_latency]
          exact usub64_ne_zero ht0lt htslt
        rw [connRun_snd_cons, List.countP_append, countMatched_cons_ret, hstep,
          hl]
        have h1 : (([connRetApply ts rc (some t0) ev] : List ConnEvent).countP
            (fun e => e.latency_ns != 0)) = 1 := by
          simp [List.countP_cons, hlatne]
        rw [h1]
        have hk2 : (s.start_times.delete (g % 2 ^ 32)).keys =
            (s.tracking.delete (g % 2 ^ 32)).keys :=
          BpfHash.keysEq_delete hkeys
        have hc2 : (s.start_times.delete (g % 2 ^ 32)).cap =
            (s.tracking.delete (g % 2 ^ 32)).cap := by
          simp only [BpfHash.cap_delete]
          exact hcap
        have hl2 : ∀ k ev', (s.tracking.delete (g % 2 ^ 32)).lookup k =
            some ev' → ev'.latency_ns = 0 :=
          fun k ev' h => hlat _ _ (BpfHash.lookup_delete_cases h)
        have ht2 : ∀ k t, (s.start_times.delete (g % 2 ^ 32)).lookup k =
            some t → t < 2 ^ 64 ∧ ∀ o' ∈ rest, t < o'.obsTs := by
          intro k t h
          obtain ⟨hb1, hb2⟩ := hts _ _ (BpfHash.lookup_delete_cases h)
          exact ⟨hb1, fun o' h' => hb2 o' (List.mem_cons_of_mem _ h')⟩
        rw [ih ⟨s.start_times.delete (g % 2 ^ 32), s.tracking.delete (g % 2 ^ 32)⟩
          hnm2 hpw2 hbd2 hk2 hc2 hl2 ht2]
        simp

end Connect

/-! ## Claims -/

/-- C1: For every finite sequence of entry and exit observations (no
intermediate probes) with strictly increasing 64-bit timestamps, in which
each key is used by at most one entry/exit pair, the number of emitted Event
Records carrying a non-null latency equals the number of exit observations
that found a matching entry record in the Correlation Store. -/
theorem claim_C1 :
    ∀ (obs : List Connect.ConnObs),
      (∀ o ∈ obs, o.isMid = false) →
      Connect.UniqueKeys obs →
      ((obs.map Connect.ConnObs.obsTs).Pairwise (· < ·)) →
      (∀ o ∈ obs, o.obsTs < 2 ^ 64) →
      ((Connect.connRun Connect.connInit obs).2.countP
        (fun e => e.latency_ns != 0)) =
        Connect.countMatched Connect.connInit obs := by
  intro obs hnm _ hpw hbd
  apply Connect.connCount_aux obs Connect.connInit hnm hpw hbd
  · rfl
  · rfl
  · intro k ev h
    exact absurd h (by simp [Connect.connInit, BpfHash.empty, BpfHash.lookup,
      lookupA])
  · intro k t h
    exact absurd h (by simp [Connect.connInit, BpfHash.empty, BpfHash.lookup,
      lookupA])

/-- Witness for C1, on the spec's scenario: `begin(key=7, t=100)` then
`resolve(key=7)` at `t=250` — one record with non-null latency, one matched
exit. -/
theorem claim_C1_witness :
    ((Connect.connRun Connect.connInit
      [Connect.ConnObs.entry ⟨7, 100, 0, 0, 0, 0, "p"⟩,
       Connect.ConnObs.ret 7 250 0]).2.countP
        (fun e => e.latency_ns != 0)) =
      Connect.countMatched Connect.connInit
        [Connect.ConnObs.entry ⟨7, 100, 0, 0, 0, 0, "p"⟩,
         Connect.ConnObs.ret 7 250 0] :=
  claim_C1 [Connect.ConnObs.entry ⟨7, 100, 0, 0, 0, 0, "p"⟩,
    Connect.ConnObs.ret 7 250 0] (by decide)
    (by unfold Connect.UniqueKeys; decide) (by decide) (by decide)

/-- C9: In every Event Record emitted by the tcp_v4_connect instrumentation
(entry, intermediate, and exit events alike), the tgid field equals 0,
because the entry handler truncates the 64-bit pid/tgid value to a 32-bit
tid and then computes tgid by right-shifting that 32-bit value by 32
bits. -/
theorem claim_C9 (obs : List Connect.ConnObs) :
    ∀ ev ∈ (Connect.connRun Connect.connInit obs).2, ev.tgid = 0 := by
  apply Connect.connRun_pred (fun ev => ev.tgid = 0)
  · intro c
    exact Connect.connEntryEvent_tgid
  · intro p rc ts st ev h
    rw [Connect.connMidApply_tgid]
    exact h
  · intro ts rc st ev h
    rw [Connect.connRetApply_tgid]
    exact h
  · intro k ev h
    rw [Connect.connInit_tracking_lookup] at h
    exact absurd h (by simp)

/-- Witness for C9: the record emitted by an entry firing with pid/tgid
value `(5 <<< 32) + 7` — tgid is 5 in the kernel value, yet the record
carries 0. -/
theorem claim_C9_witness :
    (Connect.connEntryEvent ⟨5 * 2 ^ 32 + 7, 1000, 1, 2, 3, 4, "curl"⟩).tgid = 0 :=
  claim_C9 [Connect.ConnObs.entry ⟨5 * 2 ^ 32 + 7, 1000, 1, 2, 3, 4, "curl"⟩]
    (Connect.connEntryEvent ⟨5 * 2 ^ 32 + 7, 1000, 1, 2, 3, 4, "curl"⟩)
    (by decide)

/-- C8: Every Branch Outcome value appearing in an emitted Event Record is a
member of the closed enumeration declared for that record's operation — for
the connect operation the values 0 through 20, for the receive operation the
values 0 through 18 — and each emitted record carries exactly one Branch
Outcome (the single `branch_type` field of the record). -/
theorem claim_C8 :
    (∀ (obs : List Connect.ConnObs),
      ∀ ev ∈ (Connect.connRun Connect.connInit obs).2, ev.branch_type ≤ 20) ∧
    (∀ h ∈ Rcv.rcvHandlers, ∀ c, (h c).branch_type ≤ 18) := by
  constructor
  · intro obs
    apply Connect.connRun_pred (fun ev => ev.branch_type ≤ 20)
    · intro c
      simp [Connect.connEntryEvent]
    · intro p rc ts st ev h
      rw [Connect.connMidApply_branch]
      cases p <;> simp [Connect.midBranch]
    · intro ts rc st ev h
      rcases @Connect.connRetApply_branch ts rc st ev with h14 | hsame
      · omega
      · omega
    · intro k ev h
      rw [Connect.connInit_tracking_lookup] at h
      exact absurd h (by simp)
  · intro h hm c
    simp only [Rcv.rcvHandlers, List.mem_cons, List.not_mem_nil, or_false] at hm
    rcases hm with rfl | rfl | rfl | rfl | rfl | rfl | rfl | rfl | rfl | rfl |
      rfl | rfl | rfl | rfl | rfl | rfl | rfl | rfl | rfl <;>
      simp [Rcv.trace_tcp_v4_rcv, Rcv.trace_not_for_host, Rcv.trace_no_socket,
        Rcv.trace_time_wait, Rcv.trace_checksum_error, Rcv.trace_listen_state,
        Rcv.trace_socket_busy, Rcv.trace_xfrm_policy_drop,
        Rcv.trace_new_syn_recv, Rcv.trace_pkt_too_small, Rcv.trace_min_ttl_drop,
        Rcv.trace_socket_filter_drop, Rcv.trace_do_rcv_call, Rcv.trace_md5_fail,
        Rcv.trace_backlog_add, Rcv.trace_req_stolen, Rcv.trace_listen_drop,
        Rcv.trace_rst_sent, Rcv.trace_established, Rcv.rcvBaseEvent]

/-- Witness for C8: a concrete connect run and a concrete receive handler
firing, with the hypotheses discharged by evaluation. -/
theorem claim_C8_witness :
    (Connect.connEntryEvent ⟨8, 200, 0, 0, 0, 0, "wget"⟩).branch_type ≤ 20 ∧
    (Rcv.trace_checksum_error ⟨9, 300, "rcv", 0, 0, 0, 0⟩).branch_type ≤ 18 :=
  ⟨claim_C8.1 [Connect.ConnObs.entry ⟨8, 200, 0, 0, 0, 0, "wget"⟩]
      (Connect.connEntryEvent ⟨8, 200, 0, 0, 0, 0, "wget"⟩) (by decide),
   claim_C8.2 Rcv.trace_checksum_error (by simp [Rcv.rcvHandlers])
      ⟨9, 300, "rcv", 0, 0, 0, 0⟩⟩

/-- Counterexample to C5 as stated: `trace_listen_drop` emits a record whose
Branch Outcome `TCP_BRANCH_LISTEN_DROP = 16` is a failing/drop outcome, yet
its Drop/Error Reason is 0 (null) — the handler never sets `drop_reason`, so
the zero initialization is submitted. -/
theorem claim_C5_counterexample :
    Rcv.rcvFailingBranch
      (Rcv.trace_listen_drop ⟨5, 100, "srv", 1, 2, 3, 4⟩).branch_type = true ∧
    (Rcv.trace_listen_drop ⟨5, 100, "srv", 1, 2, 3, 4⟩).drop_reason = 0 := by
  decide

/-- C5 (amended): in every emitted receive-path Event Record, a non-null
(non-zero) Drop/Error Reason implies that the record's Branch Outcome is
classified as a failing/drop outcome.  The converse direction of the claimed
equivalence fails: `trace_listen_drop` emits a failing outcome with a null
reason. -/
theorem claim_C5 :
    ∀ h ∈ Rcv.rcvHandlers, ∀ c, (h c).drop_reason ≠ 0 →
      Rcv.rcvFailingBranch (h c).branch_type = true := by
  intro h hm c
  simp only [Rcv.rcvHandlers, List.mem_cons, List.not_mem_nil, or_false] at hm
  rcases hm with rfl | rfl | rfl | rfl | rfl | rfl | rfl | rfl | rfl | rfl |
    rfl | rfl | rfl | rfl | rfl | rfl | rfl | rfl | rfl <;>
    simp [Rcv.trace_tcp_v4_rcv, Rcv.trace_not_for_host, Rcv.trace_no_socket,
      Rcv.trace_time_wait, Rcv.trace_checksum_error, Rcv.trace_listen_state,
      Rcv.trace_socket_busy, Rcv.trace_xfrm_policy_drop,
      Rcv.trace_new_syn_recv, Rcv.trace_pkt_too_small, Rcv.trace_min_ttl_drop,
      Rcv.trace_socket_filter_drop, Rcv.trace_do_rcv_call, Rcv.trace_md5_fail,
      Rcv.trace_backlog_add, Rcv.trace_req_stolen, Rcv.trace_listen_drop,
      Rcv.trace_rst_sent, Rcv.trace_established, Rcv.rcvBaseEvent,
      Rcv.rcvFailingBranch]

/-- Witness for C5 (amended): `trace_no_socket` emits reason
`SKB_DROP_REASON_NO_SOCKET = 3`, and its branch is indeed failing. -/
theorem claim_C5_witness :
    Rcv.rcvFailingBranch
      (Rcv.trace_no_socket ⟨3, 50, "nc", 0, 0, 0, 0⟩).branch_type = true :=
  claim_C5 Rcv.trace_no_socket (by simp [Rcv.rcvHandlers])
    ⟨3, 50, "nc", 0, 0, 0, 0⟩ (by decide)

/-- C4: For every exit or intermediate observation whose key has no live
Correlation Record, the handler performs a silent non-fatal skip: it emits no
Event Record, leaves the store unchanged, and returns 0 rather than
signalling an error.  Shown for the three cited handlers:
`trace_invalid_addrlen` (connect intermediate), `trace_handle_mm_fault_return`
(page-fault exit), and the `kmem:rss_stat` tracepoint handler. -/
theorem claim_C4 :
    (∀ (s : Connect.ConnState) (pidtgid ts : Nat),
      s.tracking.lookup (pidtgid % 2 ^ 32) = none →
      Connect.trace_invalid_addrlen s pidtgid ts = (s, [], 0)) ∧
    (∀ (s : BpfHash Fault.FaultInfo) (pidtgid ret : Nat) (comm : String),
      s.lookup (pidtgid % 2 ^ 32) = none →
      Fault.trace_handle_mm_fault_return s pidtgid ret comm = (s, [], 0)) ∧
    (∀ (s : BpfHash Rss.RssOut) (pidtgid : Nat) (member : Int) (size ts : Nat),
      s.lookup (pidtgid % 2 ^ 32) = none →
      Rss.rss_stat_tp s pidtgid member size ts = (s, [], 0)) := by
  refine ⟨?_, ?_, ?_⟩
  · intro s pidtgid ts h
    norm_num at h
    simp [Connect.trace_invalid_addrlen, Connect.connIntermediate, h]
  · intro s pidtgid ret comm h
    norm_num at h
    simp [Fault.trace_handle_mm_fault_return, h]
  · intro s pidtgid member size ts h
    norm_num at h
    simp [Rss.rss_stat_tp, h]

/-- Witness for C4: the three handlers fired against empty stores. -/
theorem claim_C4_witness :
    Connect.trace_invalid_addrlen Connect.connInit 7 100
      = (Connect.connInit, [], 0) ∧
    Fault.trace_handle_mm_fault_return Fault.faultInit 7 0 "a"
      = (Fault.faultInit, [], 0) ∧
    Rss.rss_stat_tp (BpfHash.empty 32768) 7 1 4096 50
      = (BpfHash.empty 32768, [], 0) :=
  ⟨claim_C4.1 Connect.connInit 7 100 rfl,
   claim_C4.2.1 Fault.faultInit 7 0 "a" rfl,
   claim_C4.2.2 (BpfHash.empty 32768) 7 1 4096 50 rfl⟩

/-- C10: Given a live entry record, the page-fault return handler emits an
Event Record if and only if the fault's return value has no `VM_FAULT_ERROR`
bit (0x0001) set; in both the emitting and non-emitting cases the entry
record for that key is deleted; and the emitted record's timestamp is the
entry timestamp divided by 1000, not the time of the return observation
(which the handler never reads). -/
theorem claim_C10 :
    ∀ (s : BpfHash Fault.FaultInfo) (pidtgid ret : Nat) (comm : String)
      (info : Fault.FaultInfo),
      s.lookup (pidtgid % 2 ^ 32) = some info →
      ((Fault.trace_handle_mm_fault_return s pidtgid ret comm).2.1 ≠ [] ↔
        ret &&& 1 = 0) ∧
      (Fault.trace_handle_mm_fault_return s pidtgid ret comm).1 =
        s.delete (pidtgid % 2 ^ 32) ∧
      (∀ e ∈ (Fault.trace_handle_mm_fault_return s pidtgid ret comm).2.1,
        e.ts_uptime_us = info.ts_start / 1000) := by
  intro s pidtgid ret comm info h
  norm_num at h
  rcases Nat.mod_two_eq_zero_or_one ret with h2 | h2
  · have hne : ¬ (ret % 2 = 1) := by omega
    simp [Fault.trace_handle_mm_fault_return, Nat.and_one_is_mod, h, h2, hne]
  · simp [Fault.trace_handle_mm_fault_return, Nat.and_one_is_mod, h, h2]

/-- Witness for C10: a successful fault (`ret = 0`) against a store holding
an entry record stored at time 5000; the emitted record is stamped 5. -/
theorem claim_C10_witness :
    (((Fault.trace_handle_mm_fault_return
        (Fault.trace_handle_mm_fault_entry Fault.faultInit 7 4096 1 5000).1
        7 0 "x").2.1 ≠ [] ↔ (0 : Nat) &&& 1 = 0) ∧
      (Fault.trace_handle_mm_fault_return
        (Fault.trace_handle_mm_fault_entry Fault.faultInit 7 4096 1 5000).1
        7 0 "x").1 =
        (Fault.trace_handle_mm_fault_entry Fault.faultInit 7 4096 1 5000).1.delete
          (7 % 2 ^ 32) ∧
      (∀ e ∈ (Fault.trace_handle_mm_fault_return
        (Fault.trace_handle_mm_fault_entry Fault.faultInit 7 4096 1 5000).1
        7 0 "x").2.1, e.ts_uptime_us = 5000 / 1000)) :=
  claim_C10 (Fault.trace_handle_mm_fault_entry Fault.faultInit 7 4096 1 5000).1
    7 0 "x" ⟨7 % 2 ^ 32, 4096, 1, 5000⟩ (by decide)

/-- C2 fails on the code (code bug): `kretprobe__do_madvise` hits an
unconditional `return 0;` before its lookup/submit/delete block, so an exit
firing whose key holds a live record with a successful (`rc = 0`) return
emits nothing and leaves the record live — the dead statements after the
return show read-emit-delete was the intent, as the spec states.  This
theorem evaluates the handler at the failing input: a live record under key 7
and return value 0. -/
theorem claim_C2 :
    Madvise.kretprobe__do_madvise
      (Madvise.kprobe__do_madvise Madvise.madviseInit 7 42 100 4096 4096 4).1
      7 0 =
      ((Madvise.kprobe__do_madvise Madvise.madviseInit 7 42 100 4096 4096 4).1,
        [], 0) ∧
    ((Madvise.kprobe__do_madvise Madvise.madviseInit 7 42 100 4096 4096 4).1.lookup
      7).isSome = true := by
  decide

namespace Madvise

theorem madviseStep_bounded {s : BpfHash MadviseOut} (o : MadviseObs)
    (h : BpfHash.Bounded s) : BpfHash.Bounded (madviseStep s o) := by
  cases o with
  | entry pidtgid ownerTgid ts addr len advice => exact BpfHash.bounded_insert h
  | exit pidtgid rc =>
    simp only [madviseStep, kretprobe__do_madvise]
    split_ifs with h1
    · exact BpfHash.bounded_delete h
    · exact h

theorem madviseStep_cap {s : BpfHash MadviseOut} (o : MadviseObs) :
    (madviseStep s o).cap = s.cap := by
  cases o with
  | entry pidtgid ownerTgid ts addr len advice =>
    simp only [madviseStep, kprobe__do_madvise, BpfHash.insert]
    split_ifs <;> rfl
  | exit pidtgid rc =>
    simp only [madviseStep, kretprobe__do_madvise]
    split_ifs <;> rfl

theorem madviseRun_bounded : ∀ (obs : List MadviseObs) (s : BpfHash MadviseOut),
    BpfHash.Bounded s → BpfHash.Bounded (madviseRun s obs) := by
  intro obs
  induction obs with
  | nil => intro s h; exact h
  | cons o rest ih =>
    intro s h
    exact ih (madviseStep s o) (madviseStep_bounded o h)

theorem madviseRun_cap : ∀ (obs : List MadviseObs) (s : BpfHash MadviseOut),
    (madviseRun s obs).cap = s.cap := by
  intro obs
  induction obs with
  | nil => intro s; rfl
  | cons o rest ih =>
    intro s
    rw [show madviseRun s (o :: rest) = madviseRun (madviseStep s o) rest from rfl,
      ih, madviseStep_cap]

end Madvise

namespace Fault

theorem fault_return_state (s : BpfHash FaultInfo) (pidtgid ret : Nat)
    (comm : String) :
    (trace_handle_mm_fault_return s pidtgid ret comm).1 = s ∨
    (trace_handle_mm_fault_return s pidtgid ret comm).1 =
      s.delete (pidtgid % 2 ^ 32) := by
  unfold trace_handle_mm_fault_return
  cases hl : s.lookup (pidtgid % 2 ^ 32) with
  | none =>
    norm_num at hl
    simp [hl]
  | some info =>
    simp only [hl]
    by_cases h1 : ret &&& 1 ≠ 0
    · rw [if_pos h1]
      right
      rfl
    · rw [if_neg h1]
      right
      rfl

theorem faultStep_bounded {s : BpfHash FaultInfo} (o : FaultObs)
    (h : BpfHash.Bounded s) : BpfHash.Bounded (faultStep s o) := by
  cases o with
  | entry pidtgid address flags ts => exact BpfHash.bounded_update h
  | exit pidtgid ret comm =>
    rcases fault_return_state s pidtgid ret comm with he | he
    · simp only [faultStep, he]
      exact h
    · simp only [faultStep, he]
      exact BpfHash.bounded_delete h

theorem faultStep_cap {s : BpfHash FaultInfo} (o : FaultObs) :
    (faultStep s o).cap = s.cap := by
  cases o with
  | entry pidtgid address flags ts =>
    exact BpfHash.cap_update
  | exit pidtgid ret comm =>
    rcases fault_return_state s pidtgid ret comm with he | he
    · simp only [faultStep, he]
    · simp only [faultStep, he, BpfHash.cap_delete]

theorem faultRun_bounded : ∀ (obs : List FaultObs) (s : BpfHash FaultInfo),
    BpfHash.Bounded s → BpfHash.Bounded (faultRun s obs) := by
  intro obs
  induction obs with
  | nil => intro s h; exact h
  | cons o rest ih =>
    intro s h
    exact ih (faultStep s o) (faultStep_bounded o h)

theorem faultRun_cap : ∀ (obs : List FaultObs) (s : BpfHash FaultInfo),
    (faultRun s obs).cap = s.cap := by
  intro obs
  induction obs with
  | nil => intro s; rfl
  | cons o rest ih =>
    intro s
    rw [show faultRun s (o :: rest) = faultRun (faultStep s o) rest from rfl,
      ih, faultStep_cap]

end Fault

/-- C6: The Correlation Store never holds more records than its configured
fixed capacity for any interleaving of begin and resolve calls — shown for
the 32768-slot `madvise_hash` and the 10240-slot `fault_entry` — and when
begin is called on a full store with a fresh key the outcome is
deterministic: the new record is rejected and the store is unchanged. -/
theorem claim_C6 :
    (∀ (obs : List Madvise.MadviseObs),
      (Madvise.madviseRun Madvise.madviseInit obs).entries.length ≤ 32768) ∧
    (∀ (obs : List Fault.FaultObs),
      (Fault.faultRun Fault.faultInit obs).entries.length ≤ 10240) ∧
    (∀ (s : BpfHash Madvise.MadviseOut) (pidtgid ownerTgid ts addr len : Nat)
      (advice : Int),
      s.lookup (pidtgid % 2 ^ 32) = none → ¬ s.entries.length < s.cap →
      (Madvise.kprobe__do_madvise s pidtgid ownerTgid ts addr len advice).1 = s) := by
  refine ⟨?_, ?_, ?_⟩
  · intro obs
    have hb := Madvise.madviseRun_bounded obs Madvise.madviseInit
      BpfHash.bounded_empty
    have hc := Madvise.madviseRun_cap obs Madvise.madviseInit
    unfold BpfHash.Bounded at hb
    rw [hc] at hb
    exact hb
  · intro obs
    have hb := Fault.faultRun_bounded obs Fault.faultInit BpfHash.bounded_empty
    have hc := Fault.faultRun_cap obs Fault.faultInit
    unfold BpfHash.Bounded at hb
    rw [hc] at hb
    exact hb
  · intro s pidtgid ownerTgid ts addr len advice h1 h2
    simp only [Madvise.kprobe__do_madvise]
    exact BpfHash.insert_of_full h1 h2

/-- Witness for C6: a one-entry run stays within the bound, and a begin with
fresh key 7 against a full one-slot store is rejected unchanged. -/
theorem claim_C6_witness :
    (Madvise.madviseRun Madvise.madviseInit
      [Madvise.MadviseObs.entry 7 42 100 4096 4096 4]).entries.length ≤ 32768 ∧
    (Madvise.kprobe__do_madvise ⟨1, [(5, ⟨1, 2, 3, 4, 5⟩)]⟩
      7 42 100 4096 4096 4).1 = ⟨1, [(5, ⟨1, 2, 3, 4, 5⟩)]⟩ :=
  ⟨claim_C6.1 [Madvise.MadviseObs.entry 7 42 100 4096 4096 4],
   claim_C6.2.2 ⟨1, [(5, ⟨1, 2, 3, 4, 5⟩)]⟩ 7 42 100 4096 4096 4
     (by decide) (by decide)⟩

namespace Ctr

theorem countP_set_eq {α : Type} (p : α → Bool) :
    ∀ (l : List α) (i : Nat) (a b : α), l.get? i = some b →
      (l.set i a).countP p + (if p b then 1 else 0) =
        l.countP p + (if p a then 1 else 0) := by
  intro l
  induction l with
  | nil => intro i a b h; simp at h
  | cons x xs ih =>
    intro i a b h
    cases i with
    | zero =>
      simp only [List.get?] at h
      have hx : x = b := by injection h
      subst hx
      simp [List.set, List.countP_cons]
      omega
    | succ n =>
      simp only [List.get?] at h
      have := ih n a b h
      simp [List.set, List.countP_cons]
      omega

theorem ctrStep_atomic (s : CtrSys) (i : Nat)
    (hinv : ∀ t ∈ s.threads, t.prog = [] ∨ t.prog = [CounterOp.atomicAdd]) :
    ((ctrStep s i).counter +
        (ctrStep s i).threads.countP (fun t => !t.prog.isEmpty) =
      s.counter + s.threads.countP (fun t => !t.prog.isEmpty)) ∧
    (∀ t ∈ (ctrStep s i).threads,
      t.prog = [] ∨ t.prog = [CounterOp.atomicAdd]) := by
  unfold ctrStep
  cases hget : s.threads.get? i with
  | none => exact ⟨rfl, hinv⟩
  | some t =>
    dsimp only
    rcases hinv t (List.get?_mem hget) with hp | hp
    · rw [hp]
      exact ⟨rfl, hinv⟩
    · rw [hp]
      constructor
      · have hc := countP_set_eq (fun t => !t.prog.isEmpty) s.threads i
          ⟨[], t.reg⟩ t hget
        simp [hp] at hc
        dsimp only
        omega
      · intro u hu
        rcases List.mem_or_eq_of_mem_set hu with h | h
        · exact hinv u h
        · rw [h]
          left
          rfl

theorem ctrRun_atomic : ∀ (sched : List Nat) (s : CtrSys),
    (∀ t ∈ s.threads, t.prog = [] ∨ t.prog = [CounterOp.atomicAdd]) →
    ((ctrRun s sched).counter +
        (ctrRun s sched).threads.countP (fun t => !t.prog.isEmpty) =
      s.counter + s.threads.countP (fun t => !t.prog.isEmpty)) ∧
    (∀ t ∈ (ctrRun s sched).threads,
      t.prog = [] ∨ t.prog = [CounterOp.atomicAdd]) := by
  intro sched
  induction sched with
  | nil => intro s hinv; exact ⟨rfl, hinv⟩
  | cons i rest ih =>
    intro s hinv
    obtain ⟨hs1, hs2⟩ := ctrStep_atomic s i hinv
    obtain ⟨hr1, hr2⟩ := ih (ctrStep s i) hs2
    refine ⟨?_, hr2⟩
    simp only [ctrRun] at *
    omega

theorem countP_replicate_atomic : ∀ (m : Nat),
    (List.replicate m atomicIncThread).countP (fun t => !t.prog.isEmpty) = m := by
  intro m
  induction m with
  | zero => rfl
  | succ k ih =>
    rw [List.replicate_succ, List.countP_cons, ih]
    simp [atomicIncThread]

end Ctr

/-- Counterexample to C7 as stated: the `(*count)++` increment of
`trace_tcp_v4_connect` is a non-atomic read-modify-write; two contexts each
performing one such increment of the same counter, interleaved
load/load/store/store, both run to completion yet leave the counter at 1, not
2 — a lost update. -/
theorem claim_C7_counterexample :
    (Ctr.ctrRun ⟨0, [Ctr.rmwIncThread, Ctr.rmwIncThread]⟩ [0, 1, 0, 1]).counter
      = 1 ∧
    Ctr.Finished (Ctr.ctrRun ⟨0, [Ctr.rmwIncThread, Ctr.rmwIncThread]⟩
      [0, 1, 0, 1]) := by
  decide

/-- C7 (amended): the increment implemented as `__sync_fetch_and_add`
(`trace_tcp_rcv_state_process`) is a single atomic machine step, and for
every N and every interleaving that runs all N contexts to completion, N
concurrent increments of the same counter yield a final count of exactly N;
the `(*count)++` increments of `trace_tcp_v4_connect` are instead non-atomic
read-modify-write pairs and can lose updates under concurrency. -/
theorem claim_C7 :
    ∀ (n c0 : Nat) (sched : List Nat),
      Ctr.Finished (Ctr.ctrRun ⟨c0, List.replicate n Ctr.atomicIncThread⟩ sched) →
      (Ctr.ctrRun ⟨c0, List.replicate n Ctr.atomicIncThread⟩ sched).counter =
        c0 + n := by
  intro n c0 sched hfin
  have hinv : ∀ t ∈ (⟨c0, List.replicate n Ctr.atomicIncThread⟩ : Ctr.CtrSys).threads,
      t.prog = [] ∨ t.prog = [Ctr.CounterOp.atomicAdd] := by
    intro t ht
    right
    rw [List.eq_of_mem_replicate ht]
    rfl
  obtain ⟨he, _⟩ := Ctr.ctrRun_atomic sched _ hinv
  have hzero : (Ctr.ctrRun ⟨c0, List.replicate n Ctr.atomicIncThread⟩
      sched).threads.countP (fun t => !t.prog.isEmpty) = 0 := by
    rw [List.countP_eq_zero]
    intro t ht
    have hfin2 := hfin t ht
    simp [hfin2]
  have hn := Ctr.countP_replicate_atomic n
  simp only [] at he
  omega

/-- Witness for C7 (amended): three atomic contexts scheduled in turn leave
the counter at exactly 3. -/
theorem claim_C7_witness :
    (Ctr.ctrRun ⟨0, List.replicate 3 Ctr.atomicIncThread⟩ [0, 1, 2]).counter
      = 0 + 3 :=
  claim_C7 3 0 [0, 1, 2] (by decide)

/-- Counterexample to C3 as stated: the madvise begin (`kprobe__do_madvise`,
which stores with `.insert`, i.e. BPF_NOEXIST) is NOT insert-or-overwrite —
executing `begin(7, t=100)` then `begin(7, t=105)` leaves a store different
from executing only `begin(7, t=105)`: the stored record keeps the first
timestamp 100. -/
theorem claim_C3_counterexample :
    (Madvise.kprobe__do_madvise
        (Madvise.kprobe__do_madvise Madvise.madviseInit 7 42 100 4096 4096 4).1
        7 42 105 4096 4096 4).1 ≠
      (Madvise.kprobe__do_madvise Madvise.madviseInit 7 42 105 4096 4096 4).1 ∧
    ((Madvise.kprobe__do_madvise
        (Madvise.kprobe__do_madvise Madvise.madviseInit 7 42 100 4096 4096 4).1
        7 42 105 4096 4096 4).1.lookup 7).map Madvise.MadviseOut.ts_ns =
      some 100 := by
  decide

/-- C3 (amended): the update-backed begin of the connect path
(`trace_tcp_v4_connect`, which stores with `.update`, i.e. BPF_ANY) is
insert-or-overwrite — two begins for the same key leave the same Correlation
Store as the second begin alone, and a subsequent exit computes latency from
the second begin's timestamp; the madvise begin (`kprobe__do_madvise`) instead
uses `.insert` and keeps the first record: a second begin for a live key is a
no-op. -/
theorem claim_C3 :
    (∀ (s : Connect.ConnState) (c1 c2 : Connect.EntryCtx),
      c1.pidtgid % 2 ^ 32 = c2.pidtgid % 2 ^ 32 →
      (Connect.trace_tcp_v4_connect (Connect.trace_tcp_v4_connect s c1).1 c2).1 =
        (Connect.trace_tcp_v4_connect s c2).1) ∧
    (∀ (s : Connect.ConnState) (c1 c2 : Connect.EntryCtx) (ts3 : Nat) (rc : Int),
      c1.pidtgid % 2 ^ 32 = c2.pidtgid % 2 ^ 32 →
      ((s.tracking.lookup (c2.pidtgid % 2 ^ 32)).isSome ∨
        s.tracking.entries.length < s.tracking.cap) →
      ((s.start_times.lookup (c2.pidtgid % 2 ^ 32)).isSome ∨
        s.start_times.entries.length < s.start_times.cap) →
      c2.ts ≤ ts3 → ts3 < 2 ^ 64 →
      ((Connect.trace_tcp_v4_connect_return
          (Connect.trace_tcp_v4_connect
            (Connect.trace_tcp_v4_connect s c1).1 c2).1
          c2.pidtgid ts3 rc).2.1.map Connect.ConnEvent.latency_ns) =
        [ts3 - c2.ts]) ∧
    (∀ (s : BpfHash Madvise.MadviseOut) (pidtgid ownerTgid ts addr len : Nat)
      (advice : Int), (s.lookup (pidtgid % 2 ^ 32)).isSome →
      Madvise.kprobe__do_madvise s pidtgid ownerTgid ts addr len advice =
        (s, 0)) := by
  refine ⟨?_, ?_, ?_⟩
  · intro s c1 c2 hk
    simp only [Connect.trace_tcp_v4_connect, hk]
    congr 1
    · exact BpfHash.update_update_self
    · exact BpfHash.update_update_self
  · intro s c1 c2 ts3 rc hk htr hst hle hlt
    simp only [Connect.trace_tcp_v4_connect, hk]
    rw [BpfHash.update_update_self, BpfHash.update_update_self]
    have hlu : ((s.tracking.update (c2.pidtgid % 2 ^ 32)
        (Connect.connEntryEvent c2)).lookup (c2.pidtgid % 2 ^ 32)) =
        some (Connect.connEntryEvent c2) :=
      BpfHash.lookup_update_self htr
    have hsu : ((s.start_times.update (c2.pidtgid % 2 ^ 32) c2.ts).lookup
        (c2.pidtgid % 2 ^ 32)) = some c2.ts :=
      BpfHash.lookup_update_self hst
    norm_num at hlu hsu
    simp [Connect.trace_tcp_v4_connect_return, hlu, hsu,
      Connect.connRetApply_latency, usub64_eq_sub hle hlt]
  · intro s pidtgid ownerTgid ts addr len advice h
    norm_num at h
    simp [Madvise.kprobe__do_madvise, BpfHash.insert, h]

/-- Witness for C3 (amended), on the spec's scenario: `begin(key=7, t=100)`,
`begin(key=7, t=105)`, then `resolve(key=7)` at `t=300` on the connect path
yields latency 195, computed from the second begin. -/
theorem claim_C3_witness :
    ((Connect.trace_tcp_v4_connect_return
        (Connect.trace_tcp_v4_connect
          (Connect.trace_tcp_v4_connect Connect.connInit
            ⟨7, 100, 0, 0, 0, 0, "p"⟩).1
          ⟨7, 105, 0, 0, 0, 0, "p"⟩).1
        7 300 0).2.1.map Connect.ConnEvent.latency_ns) = [195] :=
  claim_C3.2.1 Connect.connInit ⟨7, 100, 0, 0, 0, 0, "p"⟩
    ⟨7, 105, 0, 0, 0, 0, "p"⟩ 300 0 rfl (Or.inr (by decide))
    (Or.inr (by decide)) (by decide) (by decide)

end KernML
